import Mathlib

/-!
# TwoWire (I2C) transfer engine of the lm4f core

A shallow embedding of `src/hardware/lm4f/cores/lm4f/Wire.cpp`, with the two
interrupt-mask functions of `src/hardware/cc3200/cores/cc3200/driverlib/des.c`
in a section of their own.

* The static fields of `TwoWire` become the fields of the record `TwoWire`.
* Every `uint8_t` field or local holds a natural number; an assignment that
  the C code makes to a `uint8_t` is truncated with `u8`.
* `Wire.cpp` takes `BUFFER_LENGTH`, `IDLE`, `MASTER_TX`, `MASTER_RX` from
  `Wire.h` and `I2C_MASTER_ERR_*` from `driverlib/i2c.h`; here they are the
  fields of a `Config` that every operation takes, so every general theorem
  holds for whatever values the headers give them.
* The I2C controller is a scripted mock `Bus`: it records every register
  access of the driver and answers each command written to `I2C_O_MCS` with the
  next `Reply` of its script.  It also holds the level that the SCL pin reads
  and the number of polls for which the bus stays busy and the peripheral stays
  not ready, so every wait loop of the driver is a finite countdown.
-/

namespace Wire

/-! ## Constants of the headers -/

/-- Constants that `Wire.cpp` takes from `Wire.h` and `driverlib/i2c.h`. -/
structure Config where
  BUFFER_LENGTH : Nat
  IDLE : Nat
  MASTER_TX : Nat
  MASTER_RX : Nat
  I2C_MASTER_ERR_NONE : Nat
  I2C_MASTER_ERR_ADDR_ACK : Nat
  I2C_MASTER_ERR_DATA_ACK : Nat
  /-- slave status "data received", from `driverlib/i2c.h` -/
  I2C_SLAVE_ACT_RREQ : Nat := 1
  /-- slave status "data requested", from `driverlib/i2c.h` -/
  I2C_SLAVE_ACT_TREQ : Nat := 2
deriving DecidableEq, Repr

/-- The constants are usable by the driver: the buffer length fits the 8-bit
indices, the three transaction states are distinct, "no error" is zero and the
two NACK codes are distinct non-zero values. -/
def Config.Valid (cfg : Config) : Prop :=
  0 < cfg.BUFFER_LENGTH ∧ cfg.BUFFER_LENGTH ≤ 255 ∧
  cfg.IDLE ≠ cfg.MASTER_TX ∧ cfg.IDLE ≠ cfg.MASTER_RX ∧ cfg.MASTER_TX ≠ cfg.MASTER_RX ∧
  cfg.I2C_MASTER_ERR_NONE = 0 ∧
  cfg.I2C_MASTER_ERR_ADDR_ACK ≠ 0 ∧ cfg.I2C_MASTER_ERR_DATA_ACK ≠ 0 ∧
  cfg.I2C_MASTER_ERR_ADDR_ACK ≠ cfg.I2C_MASTER_ERR_DATA_ACK

instance (cfg : Config) : Decidable cfg.Valid := by
  unfold Config.Valid
  infer_instance

/-- A concrete set of constants for the examples: a 32 byte buffer, the states
numbered 0, 1, 2, and the error bits `0x04` (address NACK) and `0x08` (data NACK)
of the master control/status register as the raw error codes. -/
def cfg32 : Config where
  BUFFER_LENGTH := 32
  IDLE := 0
  MASTER_TX := 1
  MASTER_RX := 2
  I2C_MASTER_ERR_NONE := 0
  I2C_MASTER_ERR_ADDR_ACK := 4
  I2C_MASTER_ERR_DATA_ACK := 8

/-- Conversion of a C `int` to `uint8_t`. -/
def u8 (x : Int) : Nat := (x % 256).toNat

/-! ## The mock I2C controller -/

/-- Answer of the controller to one command written to `I2C_O_MCS`. -/
structure Reply where
  /-- number of `I2CMasterBusy` polls that still report busy -/
  busyPolls : Nat
  /-- value of `I2CMasterErr` once the command completed -/
  err : Nat
  /-- content of the data register once the command completed -/
  data : Nat
deriving DecidableEq, Repr

/-- The two lines of the bus. -/
inductive Pin where
  | scl
  | sda
deriving DecidableEq, Repr

/-- A register access or driver-library call made by the driver. -/
inductive BusOp where
  /-- `I2CMasterSlaveAddrSet(MASTER_BASE, address, receive)` -/
  | slaveAddrSet (address : Nat) (receive : Bool)
  /-- `I2CMasterDataPut(MASTER_BASE, data)` -/
  | dataPut (data : Nat)
  /-- `HWREG(MASTER_BASE + I2C_O_MCS) = cmd` -/
  | mcs (cmd : Nat)
  /-- `I2CMasterControl(MASTER_BASE, I2C_MASTER_CMD_BURST_RECEIVE_ERROR_STOP)` -/
  | receiveErrorStop
  /-- `I2CMasterControl(MASTER_BASE, I2C_MASTER_CMD_BURST_SEND_ERROR_STOP)` -/
  | sendErrorStop
  /-- `I2CSlaveDataPut(SLAVE_BASE, data)` -/
  | slaveDataPut (data : Nat)
  /-- `SysCtlPeripheralEnable(g_uli2cPeriph[module])` -/
  | peripheralEnable (module : Nat)
  /-- `HWREG(MASTER_BASE + 0x52C) = 0` with `MASTER_BASE` of `module` -/
  | pctlClear (module : Nat)
  /-- `GPIOPinTypeGPIOOutput(g_uli2cBase[module], pins)`; `scl` and `sda` tell
  which of the two pins are named -/
  | pinTypeGPIOOutput (module : Nat) (scl sda : Bool)
  /-- `GPIOPinWrite(g_uli2cBase[module], pin, value)`; `high` tells whether the
  value sets the pin -/
  | pinWrite (module : Nat) (pin : Pin) (high : Bool)
  /-- `SysCtlPeripheralReset(g_uli2cPeriph[module])` -/
  | peripheralReset (module : Nat)
  /-- `GPIOPinConfigure(g_uli2cConfig[module][k])`, `k = 0` for SCL, `1` for SDA -/
  | pinConfigure (module : Nat) (pin : Pin)
  /-- `GPIOPinTypeI2C(g_uli2cBase[module], g_uli2cSDAPins[module])` -/
  | pinTypeI2C (module : Nat)
  /-- `GPIOPinTypeI2CSCL(g_uli2cBase[module], g_uli2cSCLPins[module])` -/
  | pinTypeI2CSCL (module : Nat)
  /-- `I2CMasterInitExpClk(MASTER_BASE, SysCtlClockGet(), false)` -/
  | masterInitExpClk (module : Nat)
  /-- `SysCtlDelay(SysCtlClockGet()/100000/3)` -/
  | delay
  /-- `IntEnable(g_uli2cInt[module])` -/
  | intEnable (module : Nat)
  /-- `I2CSlaveIntEnableEx(SLAVE_BASE, I2C_SLAVE_INT_DATA)` -/
  | slaveIntEnableEx (module : Nat)
  /-- `I2CMasterDisable(MASTER_BASE)` -/
  | masterDisable (module : Nat)
  /-- `I2CSlaveEnable(SLAVE_BASE)` -/
  | slaveEnable (module : Nat)
  /-- `I2CSlaveInit(SLAVE_BASE, address)` -/
  | slaveInit (module : Nat) (address : Nat)
  /-- `IntMasterEnable()` -/
  | intMasterEnable
  /-- `I2CSlaveIntClear(SLAVE_BASE)` -/
  | slaveIntClear (module : Nat)
  /-- the call `user_onReceive(count)` through the function pointer `function` -/
  | callOnReceive (function : Nat) (count : Int)
  /-- the call `user_onRequest()` through the function pointer `function` -/
  | callOnRequest (function : Nat)
deriving DecidableEq, Repr

/-- The mock controller. -/
structure Bus where
  /-- answers to the commands not yet issued, in order -/
  replies : List Reply
  /-- answer to the command issued last -/
  current : Reply
  /-- number of `I2CMasterBusBusy` polls that still report busy -/
  busBusy : Nat
  /-- register accesses so far, oldest first -/
  log : List BusOp
  /-- value that `GPIOPinRead` returns for the SCL pin -/
  sclLevel : Nat := 1
  /-- number of `SysCtlPeripheralReady` polls that still report "not ready" -/
  notReady : Nat := 0
  /-- value that `I2CSlaveStatus(SLAVE_BASE)` returns -/
  slaveStatus : Nat := 0
deriving DecidableEq, Repr

/-- A controller whose script is exhausted answers "done, no error, data 0". -/
def Reply.idle : Reply := ⟨0, 0, 0⟩

/-- The store `HWREG(MASTER_BASE + I2C_O_MCS) = cmd`: the controller starts the
command and its next scripted answer becomes the current one. -/
def Bus.writeMCS (b : Bus) (cmd : Nat) : Bus :=
  { b with
    replies := b.replies.tail
    current := b.replies.headD Reply.idle
    log := b.log ++ [BusOp.mcs cmd] }

/-- One access recorded without any reaction of the controller. -/
def Bus.record (b : Bus) (op : BusOp) : Bus :=
  { b with log := b.log ++ [op] }

/-- The loop `while(I2CMasterBusy(MASTER_BASE));`, one poll per step: a poll
that reports busy uses up one of the busy polls of the current answer. -/
def Bus.pollMasterBusy : Nat → Bus → Bus
  | 0, b => b
  | n + 1, b => Bus.pollMasterBusy n { b with current := { b.current with busyPolls := n } }

/-- The loop `while(I2CMasterBusy(MASTER_BASE));`. -/
def Bus.whileMasterBusy (b : Bus) : Bus := Bus.pollMasterBusy b.current.busyPolls b

/-- The loop `while(I2CMasterBusBusy(MASTER_BASE));`, one poll per step. -/
def Bus.pollBusBusy : Nat → Bus → Bus
  | 0, b => b
  | n + 1, b => Bus.pollBusBusy n { b with busBusy := n }

/-- The loop `while(I2CMasterBusBusy(MASTER_BASE));`. -/
def Bus.whileBusBusy (b : Bus) : Bus := Bus.pollBusBusy b.busBusy b

/-- One call of `I2CMasterBusBusy(MASTER_BASE)`: the answer and the controller
after it; an answer "busy" uses up one of the busy polls. -/
def Bus.I2CMasterBusBusy (b : Bus) : Bool × Bus :=
  match b.busBusy with
  | 0 => (false, b)
  | n + 1 => (true, { b with busBusy := n })

/-- The loop `while(!SysCtlPeripheralReady(...));`, one poll per step. -/
def Bus.pollNotReady : Nat → Bus → Bus
  | 0, b => b
  | n + 1, b => Bus.pollNotReady n { b with notReady := n }

/-- The loop `while(!SysCtlPeripheralReady(...));`. -/
def Bus.whileNotReady (b : Bus) : Bus := Bus.pollNotReady b.notReady b

/-! ## The engine state -/

/-- The static fields of class `TwoWire`, the write-error flag of its base
class `Print`, and the controller it drives. -/
structure TwoWire where
  rxBuffer : Nat → Nat
  rxReadIndex : Nat
  rxWriteIndex : Nat
  txAddress : Nat
  txBuffer : Nat → Nat
  txReadIndex : Nat
  txWriteIndex : Nat
  transmitting : Nat
  currentState : Nat
  i2cModule : Nat
  slaveAddress : Nat
  /-- flag set by `setWriteError()` -/
  writeError : Nat
  bus : Bus
  /-- the function pointer `user_onRequest`, an opaque value; 0 is the null
  pointer of the static initialisation -/
  user_onRequest : Nat := 0
  /-- the function pointer `user_onReceive`, an opaque value -/
  user_onReceive : Nat := 0

/-- Macro `TX_BUFFER_EMPTY`. -/
def TX_BUFFER_EMPTY (s : TwoWire) : Bool := s.txWriteIndex == 0

/-- Macro `TX_BUFFER_FULL`. -/
def TX_BUFFER_FULL (cfg : Config) (s : TwoWire) : Bool := s.txWriteIndex == cfg.BUFFER_LENGTH

/-- Macro `RX_BUFFER_EMPTY`. -/
def RX_BUFFER_EMPTY (s : TwoWire) : Bool := s.rxReadIndex == s.rxWriteIndex

/-- Macro `RX_BUFFER_FULL`. -/
def RX_BUFFER_FULL (cfg : Config) (s : TwoWire) : Bool :=
  (s.rxWriteIndex + 1) % cfg.BUFFER_LENGTH == s.rxReadIndex

/-- Store into a buffer slot. -/
def store (buf : Nat → Nat) (i v : Nat) : Nat → Nat := fun j => if j = i then v else buf j

/-! ## Private methods -/

/-- Function `getError`. -/
def getError (cfg : Config) (thrownError : Nat) : Nat :=
  if thrownError = cfg.I2C_MASTER_ERR_ADDR_ACK then 2
  else if thrownError = cfg.I2C_MASTER_ERR_DATA_ACK then 3
  else if thrownError ≠ 0 then 4
  else 0

/-- Method `TwoWire::getRxData`: returns the raw error and the new state. -/
def getRxData (cfg : Config) (s : TwoWire) (cmd : Nat) : Nat × TwoWire :=
  let b := if s.currentState = cfg.IDLE then s.bus.whileBusBusy else s.bus
  let b := (b.writeMCS cmd).whileMasterBusy
  let error := b.current.err % 256
  if error ≠ cfg.I2C_MASTER_ERR_NONE then
    (error, { s with bus := b.record BusOp.receiveErrorStop })
  else
    (error, { s with
      bus := b
      rxBuffer := store s.rxBuffer s.rxWriteIndex (b.current.data % 256)
      rxWriteIndex := u8 (((s.rxWriteIndex + 1) % cfg.BUFFER_LENGTH : Nat)) })

/-- Method `TwoWire::sendTxData`: returns the mapped error and the new state. -/
def sendTxData (cfg : Config) (s : TwoWire) (cmd data : Nat) : Nat × TwoWire :=
  let b := s.bus.record (BusOp.dataPut data)
  let b := (b.writeMCS cmd).whileMasterBusy
  let error := b.current.err % 256
  let b := if error ≠ cfg.I2C_MASTER_ERR_NONE then b.record BusOp.sendErrorStop else b
  (getError cfg error, { s with bus := b })

/-! ## Public methods -/

/-- Method `TwoWire::forceStop`. -/
def forceStop (s : TwoWire) : TwoWire :=
  let b := s.bus.record (BusOp.pctlClear s.i2cModule)
  let b := b.record (BusOp.pinTypeGPIOOutput s.i2cModule true true)
  let b := b.record (BusOp.pinWrite s.i2cModule Pin.sda false)
  let b := b.record (BusOp.pinWrite s.i2cModule Pin.scl true)
  let b := b.record (BusOp.pinWrite s.i2cModule Pin.sda true)
  let b := b.record (BusOp.peripheralReset s.i2cModule)
  { s with bus := b.whileNotReady }

/-- The part of `TwoWire::begin(void)` before the test of the bus: the resets,
the peripheral clock, `forceStop` if SCL reads low, the pin configuration, the
master initialisation and the assignments `slaveAddress = 0; i2cModule = 0;`. -/
def begin.setup (cfg : Config) (s : TwoWire) : TwoWire :=
  let s := { s with
    rxReadIndex := 0, rxWriteIndex := 0, txReadIndex := 0, txWriteIndex := 0,
    currentState := cfg.IDLE }
  let s := { s with bus := s.bus.record (BusOp.peripheralEnable s.i2cModule) }
  let s := if s.bus.sclLevel = 0 then forceStop s else s
  let b := s.bus.record (BusOp.pinConfigure s.i2cModule Pin.scl)
  let b := b.record (BusOp.pinConfigure s.i2cModule Pin.sda)
  let b := b.record (BusOp.pinTypeI2C s.i2cModule)
  let b := b.record (BusOp.pinTypeI2CSCL s.i2cModule)
  let b := b.record (BusOp.masterInitExpClk s.i2cModule)
  { s with bus := b, slaveAddress := 0, i2cModule := 0 }

/-- The loop `for(unsigned long i = 0; i < 10 ; i++)` of `begin` on the pins of
`module`; the second argument counts the iterations left and the third is `i`. -/
def begin.pulses (module : Nat) : Nat → Nat → Bus → Bus
  | 0, _, b => b
  | n + 1, i, b =>
    let b := b.record BusOp.delay
    let b := b.record (BusOp.pinWrite module Pin.scl (decide (i % 2 ≠ 0)))
    begin.pulses module n (i + 1) b

/-- The loop `do { ... doI++; } while(I2CMasterBusBusy(MASTER_BASE) && doI < 100)`
of `begin`.  The first argument bounds the passes; started with `doI = 0` and
100 passes allowed, the loop always leaves through its own test, because `doI`
is 100 after the 100th pass. -/
def begin.recover : Nat → Nat → TwoWire → TwoWire
  | 0, _, s => s
  | fuel + 1, doI, s =>
    let b := begin.pulses s.i2cModule 10 0 s.bus
    let doI := u8 ((doI : Int) + 1)
    let r := b.I2CMasterBusBusy
    if r.1 && decide (doI < 100) then begin.recover fuel doI { s with bus := r.2 }
    else { s with bus := r.2 }

/-- Method `TwoWire::begin(void)`. -/
def begin (cfg : Config) (s : TwoWire) : TwoWire :=
  let s := begin.setup cfg s
  let r := s.bus.I2CMasterBusBusy
  let s := { s with bus := r.2 }
  if r.1 || decide (s.bus.current.err ≠ 0) then
    let b := s.bus.record (BusOp.pctlClear s.i2cModule)
    let b := b.record (BusOp.pinTypeGPIOOutput s.i2cModule true false)
    let s := begin.recover 100 0 { s with bus := b }
    let b := s.bus.record (BusOp.pinConfigure s.i2cModule Pin.scl)
    let b := b.record (BusOp.pinConfigure s.i2cModule Pin.sda)
    let b := b.record (BusOp.pinTypeI2C s.i2cModule)
    let b := b.record (BusOp.pinTypeI2CSCL s.i2cModule)
    { s with bus := b }
  else s

/-- Method `TwoWire::begin(uint8_t)`. -/
def beginAddress (cfg : Config) (s : TwoWire) (address : Nat) : TwoWire :=
  let s := begin cfg s
  let s := { s with slaveAddress := address }
  let b := s.bus.record (BusOp.intEnable s.i2cModule)
  let b := b.record (BusOp.slaveIntEnableEx s.i2cModule)
  let b := b.record (BusOp.masterDisable s.i2cModule)
  let b := b.record (BusOp.slaveEnable s.i2cModule)
  let b := b.record (BusOp.slaveInit s.i2cModule address)
  let b := b.record BusOp.intMasterEnable
  { s with bus := b }

/-- Method `TwoWire::selectModule`. -/
def selectModule (cfg : Config) (s : TwoWire) (_i2cModule : Nat) : TwoWire :=
  let s := { s with i2cModule := u8 (_i2cModule : Int) }
  if s.slaveAddress ≠ 0 then beginAddress cfg s s.slaveAddress else begin cfg s

/-- Method `TwoWire::available`. -/
def available (cfg : Config) (s : TwoWire) : Int :=
  if s.rxWriteIndex ≥ s.rxReadIndex then (s.rxWriteIndex : Int) - s.rxReadIndex
  else (cfg.BUFFER_LENGTH : Int) - ((s.rxReadIndex : Int) - s.rxWriteIndex)

/-- Method `TwoWire::read`: returns the value and the new state. -/
def read (cfg : Config) (s : TwoWire) : Int × TwoWire :=
  if !RX_BUFFER_FULL cfg s then
    ((s.rxBuffer s.rxReadIndex : Int),
      { s with rxReadIndex := u8 (((s.rxReadIndex + 1) % cfg.BUFFER_LENGTH : Nat)) })
  else (-1, s)

/-- Method `TwoWire::peek`. -/
def peek (s : TwoWire) : Int :=
  if !RX_BUFFER_EMPTY s then (s.rxBuffer s.rxReadIndex : Int) else -1

/-- Method `TwoWire::flush`. -/
def flush (s : TwoWire) : TwoWire :=
  { s with txWriteIndex := 0, rxReadIndex := s.rxWriteIndex }

/-- The loop `for (; i < quantity; i++)` of `requestFrom`; the first argument
counts the iterations left, `quantity - i`.  The result is `some i` when the
loop returns `i` from the function and `none` when it runs to its end. -/
def requestFrom.loop (cfg : Config) (quantity runBit : Nat) :
    Nat → Nat → Nat → TwoWire → Option Nat × TwoWire
  | 0, _, _, s => (none, s)
  | n + 1, i, ackBit, s =>
    let ackBit := if i = quantity - 1 then 0 else ackBit
    let cmd := runBit ||| ackBit
    let r := getRxData cfg s cmd
    if r.1 ≠ 0 then (some (u8 i), r.2)
    else requestFrom.loop cfg quantity runBit n (i + 1) ackBit r.2

/-- The local `spaceAvailable` of `requestFrom`. -/
def spaceAvailable (cfg : Config) (s : TwoWire) : Nat :=
  if s.rxWriteIndex ≥ s.rxReadIndex then
    u8 ((cfg.BUFFER_LENGTH : Int) - ((s.rxWriteIndex : Int) - s.rxReadIndex))
  else u8 ((s.rxReadIndex : Int) - s.rxWriteIndex)

/-- Method `TwoWire::requestFrom(uint8_t, uint8_t, uint8_t)`: returns the
count and the new state. -/
def requestFrom (cfg : Config) (s : TwoWire) (address quantity sendStop : Nat) :
    Nat × TwoWire :=
  let oldWriteIndex := s.rxWriteIndex
  let quantity := if quantity > spaceAvailable cfg s then spaceAvailable cfg s else quantity
  if quantity = 0 then (0, s)
  else
    let s := { s with bus := s.bus.record (BusOp.slaveAddrSet address true) }
    let runBit := if quantity ≠ 0 then 1 else 0
    let startBit := if s.currentState = cfg.MASTER_RX then 0 else 2
    let ackBit := 8
    let cmd := runBit ||| startBit ||| ackBit
    let r := getRxData cfg s cmd
    if r.1 ≠ 0 then (0, r.2)
    else
      match requestFrom.loop cfg quantity runBit (quantity - 1) 1 ackBit r.2 with
      | (some i, s) => (i, s)
      | (none, s) =>
        let s :=
          if sendStop ≠ 0 then
            { s with bus := (s.bus.writeMCS 4).whileMasterBusy, currentState := cfg.IDLE }
          else { s with currentState := cfg.MASTER_RX }
        let bytesWritten :=
          if s.rxWriteIndex ≥ oldWriteIndex then
            u8 ((cfg.BUFFER_LENGTH : Int) - ((s.rxWriteIndex : Int) - oldWriteIndex))
          else u8 ((oldWriteIndex : Int) - s.rxWriteIndex)
        (bytesWritten, s)

/-- Method `TwoWire::beginTransmission(uint8_t)`. -/
def beginTransmission (s : TwoWire) (address : Nat) : TwoWire :=
  { s with transmitting := 1, txAddress := address, txWriteIndex := 0 }

/-- The loop `for (int i = 1; i < txWriteIndex; i++)` of `endTransmission`; the
first argument counts the iterations left and `error` is the local of that
name.  The first component of the result is `some e` when the loop returns `e`
from the function and `none` when it runs to its end; the second is `error`. -/
def endTransmission.loop (cfg : Config) (runBit : Nat) :
    Nat → Nat → Nat → TwoWire → Option Nat × Nat × TwoWire
  | 0, _, error, s => (none, error, s)
  | n + 1, i, _, s =>
    let r := sendTxData cfg s runBit (s.txBuffer i)
    let error := r.1
    if error ≠ 0 then (some (getError cfg error), error, r.2)
    else endTransmission.loop cfg runBit n (i + 1) error r.2

/-- Method `TwoWire::endTransmission(uint8_t)`: returns the status and the
new state. -/
def endTransmission (cfg : Config) (s : TwoWire) (sendStop : Nat) : Nat × TwoWire :=
  if TX_BUFFER_EMPTY s then (0, s)
  else
    let s := { s with bus := s.bus.record (BusOp.slaveAddrSet s.txAddress false) }
    let startBit := if s.currentState = cfg.MASTER_TX then 0 else 2
    let runBit := if s.txWriteIndex ≠ 0 then 1 else 0
    let cmd := runBit ||| startBit
    let r := sendTxData cfg s cmd (s.txBuffer 0)
    let error := r.1
    if error ≠ 0 then (error, r.2)
    else
      match endTransmission.loop cfg runBit (s.txWriteIndex - 1) 1 error r.2 with
      | (some e, _, s) => (e, s)
      | (none, error, s) =>
        let s :=
          if sendStop ≠ 0 then
            { s with bus := (s.bus.writeMCS 4).whileMasterBusy, currentState := cfg.IDLE }
          else { s with currentState := cfg.MASTER_TX }
        (error, { s with txWriteIndex := 0, transmitting := 0 })

/-- Method `TwoWire::write(uint8_t)`: returns the count and the new state. -/
def write (cfg : Config) (s : TwoWire) (data : Nat) : Nat × TwoWire :=
  if s.transmitting ≠ 0 then
    if TX_BUFFER_FULL cfg s then (0, { s with writeError := 1 })
    else
      (1, { s with
        txBuffer := store s.txBuffer s.txWriteIndex data
        txWriteIndex := u8 ((s.txWriteIndex : Int) + 1) })
  else (1, { s with bus := s.bus.record (BusOp.slaveDataPut data) })

/-- The loop of `TwoWire::write(const uint8_t *, size_t)`: one `write(data[i])`
per element, return values dropped. -/
def writeBuffer.loop (cfg : Config) : TwoWire → List Nat → TwoWire
  | s, [] => s
  | s, d :: ds => writeBuffer.loop cfg (write cfg s d).2 ds

/-- Method `TwoWire::write(const uint8_t *, size_t)`: `data` holds the
`quantity` bytes the pointer designates. -/
def writeBuffer (cfg : Config) (s : TwoWire) (data : List Nat) : Nat × TwoWire :=
  (data.length, writeBuffer.loop cfg s data)

/-- Method `TwoWire::onReceive`. -/
def onReceive (s : TwoWire) (function : Nat) : TwoWire :=
  { s with user_onReceive := function }

/-- Method `TwoWire::onRequest`. -/
def onRequest (s : TwoWire) (function : Nat) : TwoWire :=
  { s with user_onRequest := function }

/-- Method `TwoWire::I2CIntHandler`.  The `switch` on the slave status is a
chain of tests in the order of its `case` labels.  A call through one of the
two function pointers is recorded with its argument; what the user function
does is not part of the driver. -/
def I2CIntHandler (cfg : Config) (s : TwoWire) : TwoWire :=
  let s := { s with bus := s.bus.record (BusOp.slaveIntClear s.i2cModule) }
  if s.bus.slaveStatus = cfg.I2C_SLAVE_ACT_RREQ then
    { s with bus := s.bus.record (BusOp.callOnReceive s.user_onReceive (available cfg s)) }
  else if s.bus.slaveStatus = cfg.I2C_SLAVE_ACT_TREQ then
    { s with bus := s.bus.record (BusOp.callOnRequest s.user_onRequest) }
  else s

/-- Consecutive calls `write(d)` for the bytes of a list: the values returned,
in order, and the final state. -/
def writeEach (cfg : Config) : TwoWire → List Nat → List Nat × TwoWire
  | s, [] => ([], s)
  | s, d :: ds =>
    let r := write cfg s d
    let rest := writeEach cfg r.2 ds
    (r.1 :: rest.1, rest.2)

/-- Consecutive calls `read()`: the values returned, in order, and the final
state. -/
def readEach (cfg : Config) : Nat → TwoWire → List Int × TwoWire
  | 0, s => ([], s)
  | n + 1, s =>
    let r := read cfg s
    let rest := readEach cfg n r.2
    (r.1 :: rest.1, rest.2)

/-- The engine as the static initialisers leave it, on the controller `b`. -/
def TwoWire.init (b : Bus) : TwoWire where
  rxBuffer := fun _ => 0
  rxReadIndex := 0
  rxWriteIndex := 0
  txAddress := 0
  txBuffer := fun _ => 0
  txReadIndex := 0
  txWriteIndex := 0
  transmitting := 0
  currentState := 0
  i2cModule := 0
  slaveAddress := 0
  writeError := 0
  bus := b

/-- A controller that answers every command at once and without error; the
data register shows the bytes of `data`, one per command. -/
def Bus.serving (data : List Nat) : Bus :=
  { replies := data.map (fun d => ⟨0, 0, d⟩), current := Reply.idle, busBusy := 0, log := [] }

/-- A controller that answers at once, delivers the bytes of `data` without
error and then reports the raw error `e` on the next command. -/
def Bus.failingAfter (data : List Nat) (e : Nat) : Bus :=
  { replies := data.map (fun d => ⟨0, 0, d⟩) ++ [⟨0, e, 0⟩], current := Reply.idle,
    busBusy := 0, log := [] }

/-- Method `TwoWire::peek` as a call: the value returned and the state after the
call, which is the state before it because the body assigns no field. -/
def peek.call (s : TwoWire) : Int × TwoWire := (peek s, s)

/-- One call of `write` made while a packet is built: `write(uint8_t)` or
`write(const uint8_t *, size_t)`. -/
inductive WriteCall where
  | byte (data : Nat)
  | bulk (data : List Nat)
deriving DecidableEq, Repr

/-- The state after one call of `write`. -/
def WriteCall.run (cfg : Config) (s : TwoWire) : WriteCall → TwoWire
  | WriteCall.byte d => (write cfg s d).2
  | WriteCall.bulk ds => (writeBuffer cfg s ds).2

/-- The bytes that one call of `write` hands over. -/
def WriteCall.bytes : WriteCall → List Nat
  | WriteCall.byte d => [d]
  | WriteCall.bulk ds => ds

/-- A sequence of `write` calls, made one after the other. -/
def runWrites (cfg : Config) (s : TwoWire) (calls : List WriteCall) : TwoWire :=
  calls.foldl (WriteCall.run cfg) s

/-- The command words written to `I2C_O_MCS`, in order. -/
def mcsCommands (log : List BusOp) : List Nat :=
  log.filterMap fun op =>
    match op with
    | BusOp.mcs c => some c
    | _ => none

/-- The register accesses made between state `s` and the later state `t`. -/
def issued (s t : TwoWire) : List BusOp := t.bus.log.drop s.bus.log.length

/-- The accesses of one pass of the recovery loop of `begin` on the pins of
`module`: ten writes to the SCL pin, low and high in turn, each after a delay. -/
def begin.pass (module : Nat) : List BusOp :=
  (List.replicate 5 [BusOp.delay, BusOp.pinWrite module Pin.scl false,
    BusOp.delay, BusOp.pinWrite module Pin.scl true]).flatten

/-! ## The DES interrupt functions of `driverlib/des.c` -/

/-- Constants that `des.c` takes from `inc/hw_memmap.h`, `inc/hw_des.h` and
`inc/hw_dthe.h`: two base addresses and three register offsets. -/
structure DesConfig where
  DES_BASE : Nat
  DTHE_BASE : Nat
  DES_O_IRQENABLE : Nat
  DTHE_O_DES_IM : Nat
  DTHE_O_AES_IM : Nat
deriving DecidableEq, Repr

/-- A concrete set of addresses for the examples; the three registers are
distinct, as they are on the device. -/
def desCfg : DesConfig where
  DES_BASE := 0x44037000
  DTHE_BASE := 0x44030000
  DES_O_IRQENABLE := 0x3C
  DTHE_O_DES_IM := 0x830
  DTHE_O_AES_IM := 0x820

/-- The C operator `~` on a `uint32_t`. -/
def not32 (x : Nat) : Nat := 0xFFFFFFFF ^^^ (x % 2 ^ 32)

/-- Function `DESIntEnable`; `mem` maps an address to the word that `HWREG`
reads there, and the result is the memory after the two read-modify-writes. -/
def DESIntEnable (c : DesConfig) (mem : Nat → Nat) (ui32Base ui32IntFlags : Nat) :
    Nat → Nat :=
  let mem := store mem (c.DTHE_BASE + c.DTHE_O_DES_IM)
    (mem (c.DTHE_BASE + c.DTHE_O_DES_IM) ||| ((ui32IntFlags &&& 0x00070000) >>> 16))
  store mem (ui32Base + c.DES_O_IRQENABLE)
    (mem (ui32Base + c.DES_O_IRQENABLE) ||| (ui32IntFlags &&& 0x0000ffff))

/-- Function `DESIntDisable`. -/
def DESIntDisable (c : DesConfig) (mem : Nat → Nat) (ui32Base ui32IntFlags : Nat) :
    Nat → Nat :=
  let mem := store mem (c.DTHE_BASE + c.DTHE_O_AES_IM)
    (mem (c.DTHE_BASE + c.DTHE_O_AES_IM) &&& not32 ((ui32IntFlags &&& 0x00070000) >>> 16))
  store mem (ui32Base + c.DES_O_IRQENABLE)
    (mem (ui32Base + c.DES_O_IRQENABLE) &&& not32 (ui32IntFlags &&& 0x0000ffff))

/-! ## Predicates used by the statements -/

/-- The index-range invariant of the two buffers. -/
def IndexInv (cfg : Config) (s : TwoWire) : Prop :=
  s.rxReadIndex < cfg.BUFFER_LENGTH ∧ s.rxWriteIndex < cfg.BUFFER_LENGTH ∧
  s.txWriteIndex ≤ cfg.BUFFER_LENGTH

/-- No slot beyond the two arrays differs between `s` and `t`: no store between
them used an index of `BUFFER_LENGTH` or more. -/
def OutOfRangeKept (cfg : Config) (s t : TwoWire) : Prop :=
  ∀ x, cfg.BUFFER_LENGTH ≤ x → t.rxBuffer x = s.rxBuffer x ∧ t.txBuffer x = s.txBuffer x


/-- State `t` is state `s` with the bytes `ds` appended to the RX ring. -/
def RxAppended (cfg : Config) (s t : TwoWire) (ds : List Nat) : Prop :=
  t.rxReadIndex = s.rxReadIndex ∧
  t.currentState = s.currentState ∧
  t.rxWriteIndex = (s.rxWriteIndex + ds.length) % cfg.BUFFER_LENGTH ∧
  (∀ j, j < ds.length →
    t.rxBuffer ((s.rxWriteIndex + j) % cfg.BUFFER_LENGTH) = ds.getD j 0) ∧
  (∀ x, (∀ j, j < ds.length → x ≠ (s.rxWriteIndex + j) % cfg.BUFFER_LENGTH) →
    t.rxBuffer x = s.rxBuffer x)

/-- State `t` is state `s` with the bytes `ds` appended to the TX buffer and
nothing else of the packet, the transaction state or the controller changed. -/
def TxAppended (s t : TwoWire) (ds : List Nat) : Prop :=
  t.txWriteIndex = s.txWriteIndex + ds.length ∧
  (List.range' s.txWriteIndex ds.length).map t.txBuffer = ds ∧
  (∀ x, x < s.txWriteIndex → t.txBuffer x = s.txBuffer x) ∧
  t.transmitting = s.transmitting ∧ t.currentState = s.currentState ∧
  t.txAddress = s.txAddress ∧ t.bus = s.bus

/-! ## Theorems -/

set_option maxRecDepth 8192

/-! ### Supporting lemmas -/

theorem u8_natCast (n : Nat) : u8 (n : Int) = n % 256 := by
  unfold u8
  omega

theorem u8_of_lt {n : Nat} (h : n < 256) : u8 (n : Int) = n := by
  rw [u8_natCast]; omega

theorem pollMasterBusy_fields (n : Nat) (b : Bus) :
    (Bus.pollMasterBusy n b).replies = b.replies ∧ (Bus.pollMasterBusy n b).log = b.log ∧
    (Bus.pollMasterBusy n b).busBusy = b.busBusy ∧
    (Bus.pollMasterBusy n b).current.err = b.current.err ∧
    (Bus.pollMasterBusy n b).current.data = b.current.data := by
  induction n generalizing b with
  | zero => simp [Bus.pollMasterBusy]
  | succ n ih =>
    have h := ih { b with current := { b.current with busyPolls := n } }
    simpa [Bus.pollMasterBusy] using h

theorem pollBusBusy_fields (n : Nat) (b : Bus) :
    (Bus.pollBusBusy n b).replies = b.replies ∧ (Bus.pollBusBusy n b).log = b.log ∧
    (Bus.pollBusBusy n b).current = b.current := by
  induction n generalizing b with
  | zero => simp [Bus.pollBusBusy]
  | succ n ih =>
    have h := ih { b with busBusy := n }
    simpa [Bus.pollBusBusy] using h

@[simp]
theorem whileMasterBusy_replies (b : Bus) : b.whileMasterBusy.replies = b.replies :=
  (pollMasterBusy_fields _ b).1

@[simp]
theorem whileMasterBusy_log (b : Bus) : b.whileMasterBusy.log = b.log :=
  (pollMasterBusy_fields _ b).2.1

@[simp]
theorem whileMasterBusy_err (b : Bus) : b.whileMasterBusy.current.err = b.current.err :=
  (pollMasterBusy_fields _ b).2.2.2.1

@[simp]
theorem whileMasterBusy_data (b : Bus) :
    b.whileMasterBusy.current.data = b.current.data :=
  (pollMasterBusy_fields _ b).2.2.2.2

@[simp]
theorem whileBusBusy_replies (b : Bus) : b.whileBusBusy.replies = b.replies :=
  (pollBusBusy_fields _ b).1

@[simp]
theorem whileBusBusy_log (b : Bus) : b.whileBusBusy.log = b.log :=
  (pollBusBusy_fields _ b).2.1

@[simp]
theorem whileBusBusy_current (b : Bus) : b.whileBusBusy.current = b.current :=
  (pollBusBusy_fields _ b).2.2

/-- A command answered without error: `getRxData` stores the byte and advances
the write index. -/
theorem getRxData_ok (cfg : Config) (s : TwoWire) (cmd : Nat) (r : Reply) (rest : List Reply)
    (hnone : cfg.I2C_MASTER_ERR_NONE = 0) (hB0 : 0 < cfg.BUFFER_LENGTH)
    (hB : cfg.BUFFER_LENGTH ≤ 256)
    (hs : s.bus.replies = r :: rest) (hr : r.err % 256 = 0) :
    (getRxData cfg s cmd).1 = 0 ∧
    (getRxData cfg s cmd).2.rxBuffer = store s.rxBuffer s.rxWriteIndex (r.data % 256) ∧
    (getRxData cfg s cmd).2.rxWriteIndex = (s.rxWriteIndex + 1) % cfg.BUFFER_LENGTH ∧
    (getRxData cfg s cmd).2.rxReadIndex = s.rxReadIndex ∧
    (getRxData cfg s cmd).2.currentState = s.currentState ∧
    (getRxData cfg s cmd).2.bus.replies = rest := by
  have hlt : (s.rxWriteIndex + 1) % cfg.BUFFER_LENGTH < 256 :=
    lt_of_lt_of_le (Nat.mod_lt _ hB0) hB
  have hu : u8 (((s.rxWriteIndex : Int) + 1) % (cfg.BUFFER_LENGTH : Int))
      = (s.rxWriteIndex + 1) % cfg.BUFFER_LENGTH := by
    have h := u8_of_lt hlt
    push_cast at h
    exact h
  by_cases hi : s.currentState = cfg.IDLE <;>
    simp [getRxData, hi, Bus.writeMCS, hs, hr, hnone, hu]

/-- A command answered with an error: `getRxData` stores nothing. -/
theorem getRxData_err (cfg : Config) (s : TwoWire) (cmd : Nat) (r : Reply) (rest : List Reply)
    (hnone : cfg.I2C_MASTER_ERR_NONE = 0)
    (hs : s.bus.replies = r :: rest) (hr : r.err % 256 ≠ 0) :
    (getRxData cfg s cmd).1 = r.err % 256 ∧
    (getRxData cfg s cmd).2.rxBuffer = s.rxBuffer ∧
    (getRxData cfg s cmd).2.rxWriteIndex = s.rxWriteIndex ∧
    (getRxData cfg s cmd).2.rxReadIndex = s.rxReadIndex ∧
    (getRxData cfg s cmd).2.currentState = s.currentState ∧
    (getRxData cfg s cmd).2.bus.replies = rest := by
  by_cases hi : s.currentState = cfg.IDLE <;>
    simp [getRxData, hi, Bus.writeMCS, Bus.record, hs, hr, hnone]

theorem add_mod_ne_self {B w d : Nat} (hd0 : 0 < d) (hd : d < B) :
    (w + d) % B ≠ w % B := by
  intro h
  have h1 : (w + d) ≡ (w + 0) [MOD B] := by simpa [Nat.ModEq] using h
  have h2 : d ≡ 0 [MOD B] := Nat.ModEq.add_left_cancel' w h1
  have h3 : B ∣ d := (Nat.modEq_zero_iff_dvd).1 h2
  have := Nat.le_of_dvd hd0 h3
  omega

theorem RxAppended.nil (cfg : Config) (s t : TwoWire) (hw : s.rxWriteIndex < cfg.BUFFER_LENGTH)
    (h1 : t.rxReadIndex = s.rxReadIndex) (h2 : t.currentState = s.currentState)
    (h3 : t.rxWriteIndex = s.rxWriteIndex) (h4 : t.rxBuffer = s.rxBuffer) :
    RxAppended cfg s t [] := by
  refine ⟨h1, h2, ?_, ?_, ?_⟩
  · simp [h3, Nat.mod_eq_of_lt hw]
  · intro j hj; simp at hj
  · intro x _; rw [h4]

theorem RxAppended.cons (cfg : Config) (s s1 t : TwoWire) (d : Nat) (ds : List Nat)
    (hw : s.rxWriteIndex < cfg.BUFFER_LENGTH) (hlen : ds.length + 1 ≤ cfg.BUFFER_LENGTH)
    (h1 : s1.rxReadIndex = s.rxReadIndex) (h2 : s1.currentState = s.currentState)
    (h3 : s1.rxWriteIndex = (s.rxWriteIndex + 1) % cfg.BUFFER_LENGTH)
    (h4 : s1.rxBuffer = store s.rxBuffer s.rxWriteIndex d)
    (h : RxAppended cfg s1 t ds) : RxAppended cfg s t (d :: ds) := by
  obtain ⟨a1, a2, a3, a4, a5⟩ := h
  have hshift : ∀ j, (s1.rxWriteIndex + j) % cfg.BUFFER_LENGTH
      = (s.rxWriteIndex + (j + 1)) % cfg.BUFFER_LENGTH := by
    intro j
    rw [h3, Nat.mod_add_mod]
    congr 1
    omega
  refine ⟨a1.trans h1, a2.trans h2, ?_, ?_, ?_⟩
  · rw [a3, hshift]; simp
  · intro j hj
    cases j with
    | zero =>
      have hfix : t.rxBuffer s.rxWriteIndex = s1.rxBuffer s.rxWriteIndex := by
        apply a5
        intro j hj2
        rw [hshift]
        have := add_mod_ne_self (B := cfg.BUFFER_LENGTH) (w := s.rxWriteIndex)
          (d := j + 1) (by omega) (by omega)
        rw [Nat.mod_eq_of_lt hw] at this
        exact fun e => this e.symm
      simp [Nat.mod_eq_of_lt hw, hfix, h4, store]
    | succ j =>
      have := a4 j (by simpa using hj)
      rw [hshift] at this
      simpa using this
  · intro x hx
    have hx0 : x ≠ s.rxWriteIndex := by
      have := hx 0 (by simp)
      simpa [Nat.mod_eq_of_lt hw] using this
    have : t.rxBuffer x = s1.rxBuffer x := by
      apply a5
      intro j hj
      rw [hshift]
      exact hx (j + 1) (by simpa using hj)
    rw [this, h4]
    simp [store, hx0]

theorem requestFrom_loop_abort (cfg : Config) (q runBit : Nat) (bad : Reply) (rest : List Reply)
    (hnone : cfg.I2C_MASTER_ERR_NONE = 0) (hB0 : 0 < cfg.BUFFER_LENGTH)
    (hB : cfg.BUFFER_LENGTH ≤ 256) (hbad : bad.err % 256 ≠ 0) :
    ∀ (good : List Reply) (n i ackBit : Nat) (s : TwoWire),
      s.rxWriteIndex < cfg.BUFFER_LENGTH →
      s.bus.replies = good ++ bad :: rest →
      (∀ r ∈ good, r.err % 256 = 0) →
      good.length < n → good.length ≤ cfg.BUFFER_LENGTH →
      (requestFrom.loop cfg q runBit n i ackBit s).1 = some (u8 ((i + good.length : Nat))) ∧
      RxAppended cfg s (requestFrom.loop cfg q runBit n i ackBit s).2
        (good.map (fun r => r.data % 256)) := by
  intro good
  induction good with
  | nil =>
    intro n i ackBit s hw hs _ hn _
    obtain ⟨m, rfl⟩ : ∃ m, n = m + 1 := ⟨n - 1, by simp at hn; omega⟩
    obtain ⟨e1, e2, e3, e4, e5, _⟩ := getRxData_err cfg s
      (runBit ||| (if i = q - 1 then 0 else ackBit)) bad rest hnone (by simpa using hs) hbad
    have hne : (getRxData cfg s (runBit ||| (if i = q - 1 then 0 else ackBit))).1 ≠ 0 := by
      rw [e1]; exact hbad
    simp only [requestFrom.loop, hne, ne_eq, not_false_eq_true, if_true, List.length_nil,
      Nat.add_zero, List.map_nil, true_and]
    exact RxAppended.nil cfg s _ hw e4 e5 e3 e2
  | cons g gs ih =>
    intro n i ackBit s hw hs hgood hn hlen
    obtain ⟨m, rfl⟩ : ∃ m, n = m + 1 := ⟨n - 1, by simp at hn; omega⟩
    obtain ⟨e1, e2, e3, e4, e5, e6⟩ := getRxData_ok cfg s
      (runBit ||| (if i = q - 1 then 0 else ackBit)) g (gs ++ bad :: rest) hnone hB0 hB
      (by simpa using hs) (hgood g (by simp))
    have hw1 : (getRxData cfg s (runBit ||| (if i = q - 1 then 0 else ackBit))).2.rxWriteIndex
        < cfg.BUFFER_LENGTH := by
      rw [e3]; exact Nat.mod_lt _ hB0
    have hrec := ih m (i + 1) (if i = q - 1 then 0 else ackBit) _ hw1 e6
      (fun r hr => hgood r (by simp [hr])) (by simp at hn; omega) (by simp at hlen; omega)
    simp only [requestFrom.loop, e1, ne_eq, not_true_eq_false, if_false, List.length_cons,
      List.map_cons]
    refine ⟨?_, ?_⟩
    · rw [hrec.1]; congr 2; omega
    · exact RxAppended.cons cfg s _ _ _ _ hw (by simpa using hlen) e4 e5 e3 e2 hrec.2

theorem spaceAvailable_le (cfg : Config) (s : TwoWire)
    (hr : s.rxReadIndex < cfg.BUFFER_LENGTH) (hw : s.rxWriteIndex < cfg.BUFFER_LENGTH) :
    spaceAvailable cfg s ≤ cfg.BUFFER_LENGTH := by
  unfold spaceAvailable u8
  split <;> omega

theorem requestFrom_abort_key (cfg : Config) (s : TwoWire)
    (address q sendStop : Nat) (good : List Reply) (bad : Reply) (rest : List Reply)
    (hnone : cfg.I2C_MASTER_ERR_NONE = 0) (hB0 : 0 < cfg.BUFFER_LENGTH)
    (hB : cfg.BUFFER_LENGTH ≤ 256)
    (hw : s.rxWriteIndex < cfg.BUFFER_LENGTH)
    (hlq : good.length < q) (hq : q ≤ spaceAvailable cfg s)
    (hlB : good.length ≤ cfg.BUFFER_LENGTH)
    (hs : s.bus.replies = good ++ bad :: rest)
    (hgood : ∀ r ∈ good, r.err % 256 = 0) (hbad : bad.err % 256 ≠ 0) :
    (requestFrom cfg s address q sendStop).1 = u8 (good.length : Nat) ∧
    RxAppended cfg s (requestFrom cfg s address q sendStop).2
      (good.map (fun r => r.data % 256)) := by
  have hq0 : q ≠ 0 := by omega
  have hqs : ¬ q > spaceAvailable cfg s := by omega
  unfold requestFrom
  simp only [hqs, if_false, hq0]
  cases good with
  | nil =>
    have e := fun cmd => getRxData_err cfg
      { s with bus := s.bus.record (BusOp.slaveAddrSet address true) } cmd bad rest hnone
      (by simpa [Bus.record] using hs) hbad
    have hne : ∀ cmd, (getRxData cfg
      { s with bus := s.bus.record (BusOp.slaveAddrSet address true) } cmd).1 ≠ 0 := by
      intro cmd; rw [(e cmd).1]; exact hbad
    simp only [hne, ne_eq, not_false_eq_true, if_true, List.length_nil, List.map_nil]
    exact ⟨by simp [u8],
      RxAppended.nil cfg s _ hw (e _).2.2.2.1 (e _).2.2.2.2.1 (e _).2.2.1 (e _).2.1⟩
  | cons g gs =>
    have e := fun cmd => getRxData_ok cfg
      { s with bus := s.bus.record (BusOp.slaveAddrSet address true) } cmd g
      (gs ++ bad :: rest) hnone hB0 hB (by simpa [Bus.record] using hs) (hgood g (by simp))
    have he : ∀ cmd, (getRxData cfg
      { s with bus := s.bus.record (BusOp.slaveAddrSet address true) } cmd).1 = 0 :=
      fun cmd => (e cmd).1
    simp only [he, ne_eq, not_true_eq_false, if_false, List.length_cons, List.map_cons]
    have hl := requestFrom_loop_abort cfg q (if ¬q = 0 then 1 else 0) bad rest hnone hB0 hB hbad
      gs (q - 1) 1 8
      (getRxData cfg { s with bus := s.bus.record (BusOp.slaveAddrSet address true) }
        ((if ¬q = 0 then 1 else 0) ||| (if s.currentState = cfg.MASTER_RX then 0 else 2)
          ||| 8)).2
      (by rw [(e _).2.2.1]; exact Nat.mod_lt _ hB0) (e _).2.2.2.2.2
      (fun r hr => hgood r (by simp [hr])) (by simp at hlq; omega) (by simp at hlB; omega)
    revert hl
    generalize requestFrom.loop cfg q _ (q - 1) 1 8 _ = p
    rintro ⟨h1, h2⟩
    obtain ⟨a, t⟩ := p
    simp only at h1 h2
    subst h1
    simp only
    refine ⟨?_, ?_⟩
    · congr 2; omega
    · exact RxAppended.cons cfg s _ _ _ _ hw (by simpa using hlB)
        (e _).2.2.2.1 (e _).2.2.2.2.1 (e _).2.2.1 (e _).2.1 h2

/-- Method `read` on a ring that is not full, whether it holds data or not:
the byte at the read index is returned and the read index advances. -/
theorem read_of_not_full (cfg : Config) (s : TwoWire) (hB0 : 0 < cfg.BUFFER_LENGTH)
    (hB : cfg.BUFFER_LENGTH ≤ 256)
    (h : (s.rxWriteIndex + 1) % cfg.BUFFER_LENGTH ≠ s.rxReadIndex) :
    (read cfg s).1 = (s.rxBuffer s.rxReadIndex : Int) ∧
    (read cfg s).2.rxReadIndex = (s.rxReadIndex + 1) % cfg.BUFFER_LENGTH := by
  have hlt : (s.rxReadIndex + 1) % cfg.BUFFER_LENGTH < 256 :=
    lt_of_lt_of_le (Nat.mod_lt _ hB0) hB
  have hf : RX_BUFFER_FULL cfg s = false := by
    simp [RX_BUFFER_FULL, h]
  unfold read
  rw [hf]
  exact ⟨rfl, u8_of_lt hlt⟩

/-- Method `read` on a full ring returns -1 and changes nothing. -/
theorem read_of_full (cfg : Config) (s : TwoWire)
    (h : (s.rxWriteIndex + 1) % cfg.BUFFER_LENGTH = s.rxReadIndex) :
    read cfg s = (-1, s) := by
  have hf : RX_BUFFER_FULL cfg s = true := by
    simp [RX_BUFFER_FULL, h]
  unfold read
  rw [hf]
  rfl

/-- For every buffer length from 2 to 256, `read` on an empty ring does not
return -1: it consumes the slot at the read index. -/
theorem read_of_empty (cfg : Config) (s : TwoWire) (hB2 : 2 ≤ cfg.BUFFER_LENGTH)
    (hB : cfg.BUFFER_LENGTH ≤ 256) (hw : s.rxWriteIndex < cfg.BUFFER_LENGTH)
    (h : s.rxReadIndex = s.rxWriteIndex) :
    (read cfg s).1 = (s.rxBuffer s.rxReadIndex : Int) ∧
    (read cfg s).2.rxReadIndex = (s.rxReadIndex + 1) % cfg.BUFFER_LENGTH := by
  apply read_of_not_full cfg s (by omega) hB
  rw [h]
  have h1 := add_mod_ne_self (B := cfg.BUFFER_LENGTH) (w := s.rxWriteIndex) (d := 1)
    (by omega) (by omega)
  rwa [Nat.mod_eq_of_lt hw] at h1

/-- Function `getError` maps "no error" to 0. -/
theorem getError_zero (cfg : Config) (ha : cfg.I2C_MASTER_ERR_ADDR_ACK ≠ 0)
    (hd : cfg.I2C_MASTER_ERR_DATA_ACK ≠ 0) : getError cfg 0 = 0 := by
  simp [getError, Ne.symm ha, Ne.symm hd]

/-- On a controller whose script holds no error `sendTxData` returns 0, touches
only the bus, and leaves a script without error. -/
theorem sendTxData_ok (cfg : Config) (s : TwoWire) (cmd data : Nat)
    (hnone : cfg.I2C_MASTER_ERR_NONE = 0) (ha : cfg.I2C_MASTER_ERR_ADDR_ACK ≠ 0)
    (hd : cfg.I2C_MASTER_ERR_DATA_ACK ≠ 0)
    (herr : ∀ r ∈ s.bus.replies, r.err % 256 = 0) :
    (sendTxData cfg s cmd data).1 = 0 ∧
    (∀ r ∈ (sendTxData cfg s cmd data).2.bus.replies, r.err % 256 = 0) := by
  have hg := getError_zero cfg ha hd
  cases h : s.bus.replies with
  | nil => simp [sendTxData, Bus.writeMCS, Bus.record, h, Reply.idle, hnone, hg]
  | cons r rs =>
    have hr : r.err % 256 = 0 := herr r (by simp [h])
    have hrs : ∀ x ∈ rs, x.err % 256 = 0 := fun x hx => herr x (by simp [h, hx])
    simp [sendTxData, Bus.writeMCS, Bus.record, h, hnone, hg, hr]
    exact hrs

/-- On a controller that reports no error the send loop runs to its end. -/
theorem endTransmission_loop_ok (cfg : Config) (runBit : Nat)
    (hnone : cfg.I2C_MASTER_ERR_NONE = 0) (ha : cfg.I2C_MASTER_ERR_ADDR_ACK ≠ 0)
    (hd : cfg.I2C_MASTER_ERR_DATA_ACK ≠ 0) :
    ∀ (n i error : Nat) (s : TwoWire), (∀ r ∈ s.bus.replies, r.err % 256 = 0) →
      (endTransmission.loop cfg runBit n i error s).1 = none := by
  intro n
  induction n with
  | zero => intro i error s _; rfl
  | succ n ih =>
    intro i error s herr
    obtain ⟨h1, h2⟩ := sendTxData_ok cfg s runBit (s.txBuffer i) hnone ha hd herr
    simp only [endTransmission.loop, h1, ne_eq, not_true_eq_false, if_false]
    exact ih _ _ _ h2

/-- On a controller that reports no error `endTransmission` either finds the TX
buffer empty and returns 0 with the state untouched, or sends the buffer and
leaves `txWriteIndex` and `transmitting` at 0. -/
theorem endTransmission_cleanup_on_success (cfg : Config) (s : TwoWire) (sendStop : Nat)
    (hcfg : cfg.Valid) (herr : ∀ r ∈ s.bus.replies, r.err % 256 = 0) :
    (s.txWriteIndex = 0 → endTransmission cfg s sendStop = (0, s)) ∧
    (s.txWriteIndex ≠ 0 →
      (endTransmission cfg s sendStop).2.txWriteIndex = 0 ∧
      (endTransmission cfg s sendStop).2.transmitting = 0) := by
  obtain ⟨-, -, -, -, -, hnone, ha, hd, -⟩ := hcfg
  constructor
  · intro h
    simp [endTransmission, TX_BUFFER_EMPTY, h]
  · intro h
    have e := fun cmd data => sendTxData_ok cfg
      { s with bus := s.bus.record (BusOp.slaveAddrSet s.txAddress false) } cmd data
      hnone ha hd (by simpa [Bus.record] using herr)
    have he : ∀ cmd data, (sendTxData cfg
      { s with bus := s.bus.record (BusOp.slaveAddrSet s.txAddress false) } cmd data).1 = 0 :=
      fun cmd data => (e cmd data).1
    have hE : TX_BUFFER_EMPTY s = false := by simp [TX_BUFFER_EMPTY, h]
    unfold endTransmission
    simp only [hE, Bool.false_eq_true, if_false, he, ne_eq, not_true_eq_false]
    generalize hp : endTransmission.loop cfg _ _ _ _ _ = p
    have hl : p.1 = none := by
      rw [← hp]
      exact endTransmission_loop_ok cfg _ hnone ha hd _ _ _ _ (e _ _).2
    obtain ⟨a, e', t⟩ := p
    simp only at hl
    subst hl
    exact ⟨rfl, rfl⟩

/-- Consecutive single-byte writes that fit: all are accepted. -/
theorem writeEach_fits (cfg : Config) (hB : cfg.BUFFER_LENGTH ≤ 255) :
    ∀ (bytes : List Nat) (s : TwoWire), s.transmitting ≠ 0 →
      s.txWriteIndex + bytes.length ≤ cfg.BUFFER_LENGTH →
      (writeEach cfg s bytes).1 = List.replicate bytes.length 1 ∧
      (writeEach cfg s bytes).2.txWriteIndex = s.txWriteIndex + bytes.length ∧
      (writeEach cfg s bytes).2.transmitting = s.transmitting := by
  intro bytes
  induction bytes with
  | nil => intro s _ _; simp [writeEach]
  | cons d ds ih =>
    intro s ht hlen
    simp only [List.length_cons] at hlen
    have hfull : TX_BUFFER_FULL cfg s = false := by
      simp only [TX_BUFFER_FULL, beq_eq_false_iff_ne, ne_eq]
      omega
    have hu : u8 ((s.txWriteIndex : Int) + 1) = s.txWriteIndex + 1 := by
      have h := u8_of_lt (n := s.txWriteIndex + 1) (by omega)
      push_cast at h
      exact h
    have hw : write cfg s d = (1, { s with
        txBuffer := store s.txBuffer s.txWriteIndex d
        txWriteIndex := s.txWriteIndex + 1 }) := by
      simp [write, ht, hfull, hu]
    obtain ⟨h1, h2, h3⟩ := ih { s with
        txBuffer := store s.txBuffer s.txWriteIndex d
        txWriteIndex := s.txWriteIndex + 1 } ht (by simp only; omega)
    dsimp only at h2 h3
    simp only [writeEach, hw, h1, h2, h3, List.length_cons, List.replicate_succ, true_and,
      and_true]
    omega

/-- On a controller that reports no error `sendTxData` records the byte and the
command and nothing else. -/
theorem sendTxData_ok_log (cfg : Config) (s : TwoWire) (cmd data : Nat)
    (hnone : cfg.I2C_MASTER_ERR_NONE = 0)
    (herr : ∀ r ∈ s.bus.replies, r.err % 256 = 0) :
    (sendTxData cfg s cmd data).2.bus.log
      = s.bus.log ++ [BusOp.dataPut data, BusOp.mcs cmd] := by
  cases h : s.bus.replies with
  | nil => simp [sendTxData, Bus.writeMCS, Bus.record, h, Reply.idle, hnone]
  | cons r rs =>
    have hr : r.err % 256 = 0 := herr r (by simp [h])
    simp [sendTxData, Bus.writeMCS, Bus.record, h, hnone, hr]

/-- On a controller that reports no error the send loop puts out the bytes
`txBuffer[i]`, `txBuffer[i+1]`, ..., one command each. -/
theorem endTransmission_loop_ok_log (cfg : Config) (runBit : Nat)
    (hnone : cfg.I2C_MASTER_ERR_NONE = 0) (ha : cfg.I2C_MASTER_ERR_ADDR_ACK ≠ 0)
    (hd : cfg.I2C_MASTER_ERR_DATA_ACK ≠ 0) :
    ∀ (n i : Nat) (s : TwoWire), (∀ r ∈ s.bus.replies, r.err % 256 = 0) →
      (endTransmission.loop cfg runBit n i 0 s).2.1 = 0 ∧
      (endTransmission.loop cfg runBit n i 0 s).2.2.bus.log
        = s.bus.log ++ (List.range' i n).flatMap
            (fun j => [BusOp.dataPut (s.txBuffer j), BusOp.mcs runBit]) := by
  intro n
  induction n with
  | zero => intro i s _; simp [endTransmission.loop]
  | succ n ih =>
    intro i s herr
    obtain ⟨h1, h2⟩ := sendTxData_ok cfg s runBit (s.txBuffer i) hnone ha hd herr
    have h3 := sendTxData_ok_log cfg s runBit (s.txBuffer i) hnone herr
    obtain ⟨i1, i2⟩ := ih (i + 1) (sendTxData cfg s runBit (s.txBuffer i)).2 h2
    have hbuf : (sendTxData cfg s runBit (s.txBuffer i)).2.txBuffer = s.txBuffer := rfl
    simp only [endTransmission.loop, h1, ne_eq, not_true_eq_false, if_false]
    refine ⟨i1, ?_⟩
    rw [i2, h3, hbuf, List.range'_succ]
    simp

/-- On a controller that reports no error `endTransmission` with a non-empty
buffer returns 0; it programs the address, puts out `txBuffer[0]` with the
first command, the other bytes with the run command, then the STOP command if
asked for, and sets the state accordingly. -/
theorem endTransmission_ok_log (cfg : Config) (s : TwoWire) (sendStop : Nat)
    (hnone : cfg.I2C_MASTER_ERR_NONE = 0) (ha : cfg.I2C_MASTER_ERR_ADDR_ACK ≠ 0)
    (hd : cfg.I2C_MASTER_ERR_DATA_ACK ≠ 0)
    (herr : ∀ r ∈ s.bus.replies, r.err % 256 = 0) (h : s.txWriteIndex ≠ 0) :
    (endTransmission cfg s sendStop).1 = 0 ∧
    (endTransmission cfg s sendStop).2.bus.log
      = s.bus.log ++
        (BusOp.slaveAddrSet s.txAddress false :: BusOp.dataPut (s.txBuffer 0) ::
          BusOp.mcs (1 ||| (if s.currentState = cfg.MASTER_TX then 0 else 2)) ::
          (List.range' 1 (s.txWriteIndex - 1)).flatMap
            (fun j => [BusOp.dataPut (s.txBuffer j), BusOp.mcs 1])) ++
        (if sendStop ≠ 0 then [BusOp.mcs 4] else []) ∧
    (endTransmission cfg s sendStop).2.currentState
      = (if sendStop ≠ 0 then cfg.IDLE else cfg.MASTER_TX) := by
  have herr0 : ∀ r ∈ ({ s with bus := s.bus.record (BusOp.slaveAddrSet s.txAddress false) }
      : TwoWire).bus.replies, r.err % 256 = 0 := by simpa [Bus.record] using herr
  have e := fun cmd data => sendTxData_ok cfg
    { s with bus := s.bus.record (BusOp.slaveAddrSet s.txAddress false) } cmd data
    hnone ha hd herr0
  have he : ∀ cmd data, (sendTxData cfg
    { s with bus := s.bus.record (BusOp.slaveAddrSet s.txAddress false) } cmd data).1 = 0 :=
    fun cmd data => (e cmd data).1
  have hlog := fun cmd data => sendTxData_ok_log cfg
    { s with bus := s.bus.record (BusOp.slaveAddrSet s.txAddress false) } cmd data
    hnone herr0
  have hE : TX_BUFFER_EMPTY s = false := by simp [TX_BUFFER_EMPTY, h]
  unfold endTransmission
  simp only [hE, Bool.false_eq_true, if_false, he, ne_eq, not_true_eq_false, h, if_true,
    not_false_eq_true]
  generalize hp : endTransmission.loop cfg _ _ _ _ _ = p
  have hl1 : p.1 = none := by
    rw [← hp]
    exact endTransmission_loop_ok cfg _ hnone ha hd _ _ _ _ (e _ _).2
  obtain ⟨l2, l3⟩ := endTransmission_loop_ok_log cfg 1 hnone ha hd (s.txWriteIndex - 1) 1 _
    (e (1 ||| (if s.currentState = cfg.MASTER_TX then 0 else 2)) (s.txBuffer 0)).2
  rw [hp] at l2 l3
  obtain ⟨a, e', t⟩ := p
  simp only at hl1 l2 l3
  subst hl1
  subst l2
  rw [hlog] at l3
  have hbuf : (sendTxData cfg
      { s with bus := s.bus.record (BusOp.slaveAddrSet s.txAddress false) }
      (1 ||| (if s.currentState = cfg.MASTER_TX then 0 else 2)) (s.txBuffer 0)).2.txBuffer
      = s.txBuffer := rfl
  rw [hbuf] at l3
  dsimp only
  refine ⟨rfl, ?_, ?_⟩
  · by_cases hs : sendStop = 0
    · simp [hs, l3, Bus.record]
    · simp [hs, l3, Bus.record, Bus.writeMCS]
  · by_cases hs : sendStop = 0 <;> simp [hs]

theorem TxAppended.refl (s : TwoWire) : TxAppended s s [] := by
  simp [TxAppended]

theorem TxAppended.trans {s t u : TwoWire} {a b : List Nat}
    (h1 : TxAppended s t a) (h2 : TxAppended t u b) : TxAppended s u (a ++ b) := by
  obtain ⟨a1, a2, a3, a4, a5, a6, a7⟩ := h1
  obtain ⟨b1, b2, b3, b4, b5, b6, b7⟩ := h2
  refine ⟨?_, ?_, ?_, b4.trans a4, b5.trans a5, b6.trans a6, b7.trans a7⟩
  · rw [b1, a1, List.length_append]; omega
  · rw [List.length_append, Nat.add_comm a.length b.length, ← List.range'_append_1,
      List.map_append, ← a1, b2]
    congr 1
    exact (List.map_congr_left
      (fun x hx => b3 x (by rw [a1]; exact (List.mem_range'_1.1 hx).2))).trans a2
  · intro x hx
    rw [b3 x (by omega), a3 x hx]

/-- An accepted `write(byte)` appends the byte. -/
theorem write_fits (cfg : Config) (s : TwoWire) (d : Nat) (hB : cfg.BUFFER_LENGTH ≤ 255)
    (ht : s.transmitting ≠ 0) (hlt : s.txWriteIndex < cfg.BUFFER_LENGTH) :
    (write cfg s d).1 = 1 ∧ TxAppended s (write cfg s d).2 [d] := by
  have hfull : TX_BUFFER_FULL cfg s = false := by
    simp only [TX_BUFFER_FULL, beq_eq_false_iff_ne, ne_eq]
    omega
  have hu : u8 ((s.txWriteIndex : Int) + 1) = s.txWriteIndex + 1 := by
    have h := u8_of_lt (n := s.txWriteIndex + 1) (by omega)
    push_cast at h
    exact h
  have hw : write cfg s d = (1, { s with
      txBuffer := store s.txBuffer s.txWriteIndex d
      txWriteIndex := s.txWriteIndex + 1 }) := by
    simp [write, ht, hfull, hu]
  rw [hw]
  refine ⟨rfl, rfl, ?_, ?_, rfl, rfl, rfl, rfl⟩
  · simp [store]
  · intro x hx
    have : x ≠ s.txWriteIndex := by omega
    simp [store, this]

/-- A bulk write that fits appends its bytes in order. -/
theorem writeBuffer_loop_fits (cfg : Config) (hB : cfg.BUFFER_LENGTH ≤ 255) :
    ∀ (ds : List Nat) (s : TwoWire), s.transmitting ≠ 0 →
      s.txWriteIndex + ds.length ≤ cfg.BUFFER_LENGTH →
      TxAppended s (writeBuffer.loop cfg s ds) ds := by
  intro ds
  induction ds with
  | nil => intro s _ _; exact TxAppended.refl s
  | cons d ds ih =>
    intro s ht hlen
    simp only [List.length_cons] at hlen
    obtain ⟨-, h1⟩ := write_fits cfg s d hB ht (by omega)
    have h2 := ih (write cfg s d).2 (by rw [h1.2.2.2.1]; exact ht)
      (by rw [h1.1]; simp only [List.length_singleton]; omega)
    exact TxAppended.trans h1 h2

/-- A sequence of `write` calls that fits appends all the bytes in order. -/
theorem runWrites_fits (cfg : Config) (hB : cfg.BUFFER_LENGTH ≤ 255) :
    ∀ (calls : List WriteCall) (s : TwoWire), s.transmitting ≠ 0 →
      s.txWriteIndex + (calls.flatMap WriteCall.bytes).length ≤ cfg.BUFFER_LENGTH →
      TxAppended s (runWrites cfg s calls) (calls.flatMap WriteCall.bytes) := by
  intro calls
  induction calls with
  | nil => intro s _ _; exact TxAppended.refl s
  | cons c cs ih =>
    intro s ht hlen
    simp only [List.flatMap_cons, List.length_append] at hlen
    have h1 : TxAppended s (WriteCall.run cfg s c) (WriteCall.bytes c) := by
      cases c with
      | byte d =>
        exact (write_fits cfg s d hB ht (by simp [WriteCall.bytes] at hlen; omega)).2
      | bulk ds =>
        exact writeBuffer_loop_fits cfg hB ds s ht (by simp [WriteCall.bytes] at hlen; omega)
    have h2 := ih (WriteCall.run cfg s c) (by rw [h1.2.2.2.1]; exact ht)
      (by rw [h1.1]; omega)
    simp only [List.flatMap_cons]
    exact TxAppended.trans h1 h2

/-- The commands of a run of "byte, command" pairs. -/
theorem mcsCommands_pairs (c : Nat) (ds : List Nat) :
    mcsCommands (ds.flatMap (fun d => [BusOp.dataPut d, BusOp.mcs c]))
      = List.replicate ds.length c := by
  induction ds with
  | nil => rfl
  | cons d ds ih =>
    simp only [List.flatMap_cons, List.length_cons, List.replicate_succ]
    rw [← ih]
    simp [mcsCommands]

/-- The accesses made by a call whose log extends the log before it. -/
theorem issued_of_log {s t : TwoWire} {new : List BusOp} (h : t.bus.log = s.bus.log ++ new) :
    issued s t = new := by
  unfold issued
  rw [h, List.drop_left]

/-- The commands that an error-free `endTransmission` with a non-empty buffer
issues: the first command, one run command per further byte, then STOP if
asked for. -/
theorem endTransmission_ok_commands (cfg : Config) (s : TwoWire) (sendStop : Nat)
    (hnone : cfg.I2C_MASTER_ERR_NONE = 0) (ha : cfg.I2C_MASTER_ERR_ADDR_ACK ≠ 0)
    (hd : cfg.I2C_MASTER_ERR_DATA_ACK ≠ 0)
    (herr : ∀ r ∈ s.bus.replies, r.err % 256 = 0) (h : s.txWriteIndex ≠ 0) :
    mcsCommands (issued s (endTransmission cfg s sendStop).2)
      = ((1 ||| (if s.currentState = cfg.MASTER_TX then 0 else 2)) ::
          List.replicate (s.txWriteIndex - 1) 1) ++ (if sendStop ≠ 0 then [4] else []) := by
  obtain ⟨-, h2, -⟩ := endTransmission_ok_log cfg s sendStop hnone ha hd herr h
  rw [List.append_assoc] at h2
  rw [issued_of_log h2, ← List.flatMap_map s.txBuffer
    (fun d => [BusOp.dataPut d, BusOp.mcs 1])]
  unfold mcsCommands
  rw [List.filterMap_append]
  have hp := mcsCommands_pairs 1 (List.map s.txBuffer (List.range' 1 (s.txWriteIndex - 1)))
  unfold mcsCommands at hp
  simp only [List.filterMap_cons, hp, List.length_map, List.length_range']
  by_cases hs : sendStop = 0 <;> simp [hs]

/-- Function `getError` maps every error to a non-zero code. -/
theorem getError_ne_zero (cfg : Config) (e : Nat) (he : e ≠ 0) : getError cfg e ≠ 0 := by
  unfold getError
  split
  · decide
  · split
    · decide
    · simp [he]

/-- Whatever the controller answers, `sendTxData` records the byte, the command
and at most an error stop, and touches nothing but the bus. -/
theorem sendTxData_log_any (cfg : Config) (s : TwoWire) (cmd data : Nat) :
    ∃ tail, (sendTxData cfg s cmd data).2.bus.log
        = s.bus.log ++ (BusOp.dataPut data :: BusOp.mcs cmd :: tail) ∧
      mcsCommands tail = [] := by
  by_cases h : (s.bus.replies.head?.getD Reply.idle).err % 256 = cfg.I2C_MASTER_ERR_NONE
  · refine ⟨[], ?_, rfl⟩
    simp [sendTxData, Bus.record, Bus.writeMCS, h]
  · refine ⟨[BusOp.sendErrorStop], ?_, rfl⟩
    simp [sendTxData, Bus.record, Bus.writeMCS, h]

/-- Whatever the controller answers, the send loop writes only run commands,
keeps the transaction state, and returns a non-zero code if it returns. -/
theorem endTransmission_loop_any (cfg : Config) (runBit : Nat) :
    ∀ (n i e : Nat) (s : TwoWire),
      ∃ new, (endTransmission.loop cfg runBit n i e s).2.2.bus.log = s.bus.log ++ new ∧
        (∀ c ∈ mcsCommands new, c = runBit) ∧
        (endTransmission.loop cfg runBit n i e s).2.2.currentState = s.currentState ∧
        (∀ x, (endTransmission.loop cfg runBit n i e s).1 = some x → x ≠ 0) := by
  intro n
  induction n with
  | zero =>
    intro i e s
    exact ⟨[], by simp [endTransmission.loop], by simp [mcsCommands], rfl,
      by simp [endTransmission.loop]⟩
  | succ n ih =>
    intro i e s
    obtain ⟨tail, t1, t2⟩ := sendTxData_log_any cfg s runBit (s.txBuffer i)
    have hcs : (sendTxData cfg s runBit (s.txBuffer i)).2.currentState = s.currentState := rfl
    have hcmd : mcsCommands (BusOp.dataPut (s.txBuffer i) :: BusOp.mcs runBit :: tail)
        = [runBit] := by
      have : mcsCommands (BusOp.dataPut (s.txBuffer i) :: BusOp.mcs runBit :: tail)
          = runBit :: mcsCommands tail := by simp [mcsCommands]
      rw [this, t2]
    by_cases hr : (sendTxData cfg s runBit (s.txBuffer i)).1 = 0
    · obtain ⟨new, n1, n2, n3, n4⟩ := ih (i + 1) (sendTxData cfg s runBit (s.txBuffer i)).1
        (sendTxData cfg s runBit (s.txBuffer i)).2
      refine ⟨(BusOp.dataPut (s.txBuffer i) :: BusOp.mcs runBit :: tail) ++ new, ?_, ?_, ?_, ?_⟩
      · simp only [endTransmission.loop, hr, ne_eq, not_true_eq_false, if_false]
        rw [hr] at n1
        rw [n1, t1, List.append_assoc]
      · intro c hc
        unfold mcsCommands at hc hcmd n2
        rw [List.filterMap_append, hcmd] at hc
        rcases List.mem_append.1 hc with hc | hc
        · simpa using hc
        · exact n2 c hc
      · simp only [endTransmission.loop, hr, ne_eq, not_true_eq_false, if_false]
        rw [hr] at n3
        rw [n3, hcs]
      · simp only [endTransmission.loop, hr, ne_eq, not_true_eq_false, if_false]
        rw [hr] at n4
        exact n4
    · refine ⟨BusOp.dataPut (s.txBuffer i) :: BusOp.mcs runBit :: tail, ?_, ?_, ?_, ?_⟩
      · simp only [endTransmission.loop, hr, ne_eq, not_false_eq_true, if_true]
        exact t1
      · intro c hc
        rw [hcmd] at hc
        simpa using hc
      · simp only [endTransmission.loop, hr, ne_eq, not_false_eq_true, if_true]
        exact hcs
      · intro x hx
        simp only [endTransmission.loop, hr, ne_eq, not_false_eq_true, if_true,
          Option.some.injEq] at hx
        rw [← hx]
        exact getError_ne_zero cfg _ hr

/-- Whatever the controller answers, `endTransmission` with a non-empty buffer
extends the log by the address, the first byte, the first command, and then
accesses whose commands are run or STOP commands; if it returns 0 without a
STOP asked for, the state is MASTER_TX. -/
theorem endTransmission_log_any (cfg : Config) (s : TwoWire) (sendStop : Nat)
    (h : s.txWriteIndex ≠ 0) :
    ∃ more, (endTransmission cfg s sendStop).2.bus.log
        = s.bus.log ++ (BusOp.slaveAddrSet s.txAddress false ::
          BusOp.dataPut (s.txBuffer 0) ::
          BusOp.mcs (1 ||| (if s.currentState = cfg.MASTER_TX then 0 else 2)) :: more) ∧
      (∀ c ∈ mcsCommands more, c = 1 ∨ c = 4) ∧
      ((endTransmission cfg s sendStop).1 = 0 → sendStop = 0 →
        (endTransmission cfg s sendStop).2.currentState = cfg.MASTER_TX) := by
  have hE : TX_BUFFER_EMPTY s = false := by simp [TX_BUFFER_EMPTY, h]
  obtain ⟨tail, t1, t2⟩ := sendTxData_log_any cfg
    { s with bus := s.bus.record (BusOp.slaveAddrSet s.txAddress false) }
    (1 ||| (if s.currentState = cfg.MASTER_TX then 0 else 2)) (s.txBuffer 0)
  obtain ⟨new, n1, n2, n3, n4⟩ := endTransmission_loop_any cfg 1 (s.txWriteIndex - 1) 1
    (sendTxData cfg { s with bus := s.bus.record (BusOp.slaveAddrSet s.txAddress false) }
      (1 ||| (if s.currentState = cfg.MASTER_TX then 0 else 2)) (s.txBuffer 0)).1
    (sendTxData cfg { s with bus := s.bus.record (BusOp.slaveAddrSet s.txAddress false) }
      (1 ||| (if s.currentState = cfg.MASTER_TX then 0 else 2)) (s.txBuffer 0)).2
  have hlog0 : (sendTxData cfg
      { s with bus := s.bus.record (BusOp.slaveAddrSet s.txAddress false) }
      (1 ||| (if s.currentState = cfg.MASTER_TX then 0 else 2)) (s.txBuffer 0)).2.bus.log
      = s.bus.log ++ (BusOp.slaveAddrSet s.txAddress false ::
          BusOp.dataPut (s.txBuffer 0) ::
          BusOp.mcs (1 ||| (if s.currentState = cfg.MASTER_TX then 0 else 2)) :: tail) := by
    rw [t1]
    simp [Bus.record]
  have hm : ∀ l1 l2 : List BusOp, mcsCommands (l1 ++ l2) = mcsCommands l1 ++ mcsCommands l2 :=
    fun l1 l2 => List.filterMap_append l1 l2 _
  unfold endTransmission
  simp only [hE, Bool.false_eq_true, if_false, h, ne_eq, not_false_eq_true, if_true]
  by_cases hr : (sendTxData cfg
      { s with bus := s.bus.record (BusOp.slaveAddrSet s.txAddress false) }
      (1 ||| (if s.currentState = cfg.MASTER_TX then 0 else 2)) (s.txBuffer 0)).1 = 0
  · simp only [hr, not_true_eq_false, if_false]
    rw [hr] at n1 n3 n4
    rw [hlog0, List.append_assoc] at n1
    revert n1 n3 n4
    generalize endTransmission.loop cfg 1 (s.txWriteIndex - 1) 1 0 _ = p
    intro n1 n3 n4
    obtain ⟨a, e, t⟩ := p
    simp only at n1 n3 n4
    cases a with
    | some x =>
      dsimp only
      refine ⟨tail ++ new, ?_, ?_, ?_⟩
      · rw [n1]; simp
      · intro c hc
        rw [hm, t2] at hc
        exact Or.inl (n2 c hc)
      · intro h0
        exact absurd h0 (n4 x rfl)
    | none =>
      dsimp only
      by_cases hs : sendStop = 0
      · simp only [hs, not_true_eq_false, if_false]
        refine ⟨tail ++ new, ?_, ?_, ?_⟩
        · rw [n1]; simp
        · intro c hc
          rw [hm, t2] at hc
          exact Or.inl (n2 c hc)
        · intro _ _; trivial
      · simp only [hs, not_false_eq_true, if_true]
        refine ⟨tail ++ new ++ [BusOp.mcs 4], ?_, ?_, ?_⟩
        · simp only [whileMasterBusy_log, Bus.writeMCS, n1]
          simp
        · intro c hc
          rw [hm, hm, t2] at hc
          rcases List.mem_append.1 hc with hc | hc
          · exact Or.inl (n2 c hc)
          · right
            simpa [mcsCommands] using hc
        · intro _ h0
          exact h0.elim
  · simp only [hr, not_false_eq_true, if_true]
    refine ⟨tail, hlog0, ?_, ?_⟩
    · intro c hc
      rw [t2] at hc
      simp at hc
    · intro h0
      exact h0.elim

/-- Method `write(uint8_t)` never changes the transaction state. -/
theorem write_currentState (cfg : Config) (s : TwoWire) (d : Nat) :
    (write cfg s d).2.currentState = s.currentState := by
  unfold write
  split
  · split <;> rfl
  · rfl

theorem writeBuffer_loop_currentState (cfg : Config) :
    ∀ (ds : List Nat) (s : TwoWire),
      (writeBuffer.loop cfg s ds).currentState = s.currentState := by
  intro ds
  induction ds with
  | nil => intro s; rfl
  | cons d ds ih =>
    intro s
    simp only [writeBuffer.loop]
    rw [ih, write_currentState]

/-- No sequence of `write` calls changes the transaction state. -/
theorem runWrites_currentState (cfg : Config) :
    ∀ (calls : List WriteCall) (s : TwoWire),
      (runWrites cfg s calls).currentState = s.currentState := by
  intro calls
  induction calls with
  | nil => intro s; rfl
  | cons c cs ih =>
    intro s
    have hstep : (WriteCall.run cfg s c).currentState = s.currentState := by
      cases c with
      | byte d => exact write_currentState cfg s d
      | bulk ds => exact writeBuffer_loop_currentState cfg ds s
    have := ih (WriteCall.run cfg s c)
    simp only [runWrites, List.foldl_cons] at this ⊢
    rw [this, hstep]

/-- With nothing queued `endTransmission` returns 0 and leaves the state as it is. -/
theorem endTransmission_empty (cfg : Config) (s : TwoWire) (sendStop : Nat)
    (h : s.txWriteIndex = 0) : endTransmission cfg s sendStop = (0, s) := by
  simp [endTransmission, TX_BUFFER_EMPTY, h]

theorem pollNotReady_fields (n : Nat) (b : Bus) :
    (Bus.pollNotReady n b).log = b.log ∧ (Bus.pollNotReady n b).busBusy = b.busBusy ∧
    (Bus.pollNotReady n b).current = b.current ∧
    (Bus.pollNotReady n b).replies = b.replies := by
  induction n generalizing b with
  | zero => simp [Bus.pollNotReady]
  | succ n ih =>
    have h := ih { b with notReady := n }
    simpa [Bus.pollNotReady] using h

@[simp]
theorem whileNotReady_log (b : Bus) : b.whileNotReady.log = b.log :=
  (pollNotReady_fields _ b).1

@[simp]
theorem whileNotReady_busBusy (b : Bus) : b.whileNotReady.busBusy = b.busBusy :=
  (pollNotReady_fields _ b).2.1

/-- The ten iterations of the pulse loop record one pass and touch nothing else. -/
theorem begin_pulses_ten (m : Nat) (b : Bus) :
    begin.pulses m 10 0 b = { b with log := b.log ++ begin.pass m } := by
  simp [begin.pulses, Bus.record, begin.pass]

/-- The part of `begin` before the bus test leaves module 0 selected and does
not poll the bus. -/
theorem begin_setup_fields (cfg : Config) (s : TwoWire) :
    (begin.setup cfg s).i2cModule = 0 ∧ (begin.setup cfg s).bus.busBusy = s.bus.busBusy := by
  unfold begin.setup
  refine ⟨rfl, ?_⟩
  dsimp only
  split <;> simp [Bus.record, forceStop]

/-- On a bus that stays busy the recovery loop makes every pass it is allowed:
`100 - doI` passes, each followed by one poll of the bus. -/
theorem begin_recover_stuck :
    ∀ (n doI : Nat) (s : TwoWire), 1 ≤ n → doI + n = 100 → n ≤ s.bus.busBusy →
      (begin.recover n doI s).bus.log
        = s.bus.log ++ (List.replicate n (begin.pass s.i2cModule)).flatten ∧
      (begin.recover n doI s).bus.busBusy = s.bus.busBusy - n ∧
      (begin.recover n doI s).i2cModule = s.i2cModule := by
  intro n
  induction n with
  | zero => intro doI s h; omega
  | succ n ih =>
    intro doI s _ hdo hbusy
    obtain ⟨k, hk⟩ : ∃ k, s.bus.busBusy = k + 1 := ⟨s.bus.busBusy - 1, by omega⟩
    have hu : u8 ((doI : Int) + 1) = doI + 1 := by
      have h := u8_of_lt (n := doI + 1) (by omega)
      push_cast at h
      exact h
    have hpoll : ({ s.bus with log := s.bus.log ++ begin.pass s.i2cModule } : Bus).I2CMasterBusBusy
        = (true, { s.bus with log := s.bus.log ++ begin.pass s.i2cModule, busBusy := k }) := by
      simp [Bus.I2CMasterBusBusy, hk]
    simp only [begin.recover, begin_pulses_ten, hu, hpoll, Bool.true_and]
    by_cases hn : n = 0
    · subst hn
      have h99 : ¬ doI + 1 < 100 := by omega
      simp [h99, hk]
    · have hlt : doI + 1 < 100 := by omega
      simp only [hlt, decide_True, if_true]
      obtain ⟨i1, i2, i3⟩ := ih (doI + 1)
        { s with bus := { s.bus with log := s.bus.log ++ begin.pass s.i2cModule, busBusy := k } }
        (by omega) (by omega) (by simp only; omega)
      rw [i1, i2, i3]
      refine ⟨?_, ?_, rfl⟩
      · simp [List.replicate_succ]
      · simp only; omega

/-- The bound on the passes of the recovery loop is never what ends it: started
with `doI` and `100 - doI` passes allowed, the loop gives the same result with
any larger allowance. -/
theorem begin_recover_fuel :
    ∀ (n doI k : Nat) (s : TwoWire), 1 ≤ n → doI + n = 100 →
      begin.recover (n + k) doI s = begin.recover n doI s := by
  intro n
  induction n with
  | zero => intro doI k s h; omega
  | succ n ih =>
    intro doI k s _ hdo
    have hu : u8 ((doI : Int) + 1) = doI + 1 := by
      have h := u8_of_lt (n := doI + 1) (by omega)
      push_cast at h
      exact h
    rw [show n + 1 + k = (n + k) + 1 by omega]
    simp only [begin.recover, hu]
    by_cases hn : n = 0
    · subst hn
      have h99 : ¬ doI + 1 < 100 := by omega
      simp [h99]
    · split
      · exact ih (doI + 1) k _ (by omega) (by omega)
      · rfl

/-- The recovery loop never changes the selected module. -/
theorem begin_recover_i2cModule :
    ∀ (n doI : Nat) (s : TwoWire), (begin.recover n doI s).i2cModule = s.i2cModule := by
  intro n
  induction n with
  | zero => intro doI s; rfl
  | succ n ih =>
    intro doI s
    simp only [begin.recover]
    split
    · rw [ih]
    · rfl

/-- Method `begin()` always leaves module 0 selected. -/
theorem begin_i2cModule (cfg : Config) (s : TwoWire) : (begin cfg s).i2cModule = 0 := by
  unfold begin
  dsimp only
  split
  · simp only [begin_recover_i2cModule]
    exact (begin_setup_fields cfg s).1
  · exact (begin_setup_fields cfg s).1

/-- Whatever module is asked for and whatever the controller answers,
`selectModule` returns with module 0 selected. -/
theorem selectModule_i2cModule (cfg : Config) (s : TwoWire) (m : Nat) :
    (selectModule cfg s m).i2cModule = 0 := by
  unfold selectModule
  dsimp only
  split
  · unfold beginAddress
    exact begin_i2cModule cfg _
  · exact begin_i2cModule cfg _

/-- The recovery loop of `begin` changes nothing but the controller. -/
theorem begin_recover_frame :
    ∀ (n doI : Nat) (s : TwoWire),
      begin.recover n doI s = { s with bus := (begin.recover n doI s).bus } := by
  intro n
  induction n with
  | zero => intro doI s; rfl
  | succ n ih =>
    intro doI s
    simp only [begin.recover]
    split
    · rw [ih]
    · rfl

/-- Method `begin()` leaves both buffers reset, the state IDLE and the buffer
contents as they were. -/
theorem begin_fields (cfg : Config) (s : TwoWire) :
    (begin cfg s).rxReadIndex = 0 ∧ (begin cfg s).rxWriteIndex = 0 ∧
    (begin cfg s).txReadIndex = 0 ∧ (begin cfg s).txWriteIndex = 0 ∧
    (begin cfg s).currentState = cfg.IDLE ∧
    (begin cfg s).rxBuffer = s.rxBuffer ∧ (begin cfg s).txBuffer = s.txBuffer := by
  have hs : (begin.setup cfg s).rxReadIndex = 0 ∧ (begin.setup cfg s).rxWriteIndex = 0 ∧
      (begin.setup cfg s).txReadIndex = 0 ∧ (begin.setup cfg s).txWriteIndex = 0 ∧
      (begin.setup cfg s).currentState = cfg.IDLE ∧
      (begin.setup cfg s).rxBuffer = s.rxBuffer ∧ (begin.setup cfg s).txBuffer = s.txBuffer := by
    unfold begin.setup
    dsimp only
    split <;> exact ⟨rfl, rfl, rfl, rfl, rfl, rfl, rfl⟩
  unfold begin
  dsimp only
  split
  · rw [begin_recover_frame]
    exact hs
  · exact hs

/-- Function `DESIntDisable` leaves the DES interrupt mask of the DTHE as it
is, whenever that register is not one of the two it writes. -/
theorem DESIntDisable_keeps_DES_IM (c : DesConfig) (mem : Nat → Nat) (base f : Nat)
    (h1 : c.DTHE_BASE + c.DTHE_O_DES_IM ≠ c.DTHE_BASE + c.DTHE_O_AES_IM)
    (h2 : c.DTHE_BASE + c.DTHE_O_DES_IM ≠ base + c.DES_O_IRQENABLE) :
    DESIntDisable c mem base f (c.DTHE_BASE + c.DTHE_O_DES_IM)
      = mem (c.DTHE_BASE + c.DTHE_O_DES_IM) := by
  simp [DESIntDisable, store, h1, h2]

/-- Whatever the controller answers, an `endTransmission` with a non-empty
buffer that returns 0 has reset `txWriteIndex` and the transmitting flag. -/
theorem endTransmission_zero_resets (cfg : Config) (s : TwoWire) (sendStop : Nat)
    (h : s.txWriteIndex ≠ 0) (h0 : (endTransmission cfg s sendStop).1 = 0) :
    (endTransmission cfg s sendStop).2.txWriteIndex = 0 ∧
    (endTransmission cfg s sendStop).2.transmitting = 0 := by
  have hE : TX_BUFFER_EMPTY s = false := by simp [TX_BUFFER_EMPTY, h]
  obtain ⟨new, -, -, -, n4⟩ := endTransmission_loop_any cfg 1 (s.txWriteIndex - 1) 1
    (sendTxData cfg { s with bus := s.bus.record (BusOp.slaveAddrSet s.txAddress false) }
      (1 ||| (if s.currentState = cfg.MASTER_TX then 0 else 2)) (s.txBuffer 0)).1
    (sendTxData cfg { s with bus := s.bus.record (BusOp.slaveAddrSet s.txAddress false) }
      (1 ||| (if s.currentState = cfg.MASTER_TX then 0 else 2)) (s.txBuffer 0)).2
  revert h0
  unfold endTransmission
  simp only [hE, Bool.false_eq_true, if_false, h, ne_eq, not_false_eq_true, if_true]
  by_cases hr : (sendTxData cfg
      { s with bus := s.bus.record (BusOp.slaveAddrSet s.txAddress false) }
      (1 ||| (if s.currentState = cfg.MASTER_TX then 0 else 2)) (s.txBuffer 0)).1 = 0
  · simp only [hr, not_true_eq_false, if_false]
    rw [hr] at n4
    revert n4
    generalize endTransmission.loop cfg 1 (s.txWriteIndex - 1) 1 0 _ = p
    intro n4
    obtain ⟨a, e, t⟩ := p
    simp only at n4
    cases a with
    | some x =>
      dsimp only
      intro h0
      exact absurd h0 (n4 x rfl)
    | none =>
      dsimp only
      intro _
      exact ⟨rfl, rfl⟩
  · simp only [hr, not_false_eq_true, if_true]
    intro h0
    exact h0.elim

/-- On a controller that reports no error `getRxData` returns 0, writes the
command and nothing else to the controller, and keeps the transaction state. -/
theorem getRxData_ok_log (cfg : Config) (s : TwoWire) (cmd : Nat)
    (hnone : cfg.I2C_MASTER_ERR_NONE = 0)
    (herr : ∀ r ∈ s.bus.replies, r.err % 256 = 0) :
    (getRxData cfg s cmd).1 = 0 ∧
    (getRxData cfg s cmd).2.bus.log = s.bus.log ++ [BusOp.mcs cmd] ∧
    (getRxData cfg s cmd).2.currentState = s.currentState ∧
    (∀ r ∈ (getRxData cfg s cmd).2.bus.replies, r.err % 256 = 0) := by
  cases h : s.bus.replies with
  | nil =>
    by_cases hi : s.currentState = cfg.IDLE <;>
      simp [getRxData, hi, Bus.writeMCS, h, hnone, Reply.idle]
  | cons r rs =>
    have hr : r.err % 256 = 0 := herr r (by simp [h])
    have hrs : ∀ x ∈ rs, x.err % 256 = 0 := fun x hx => herr x (by simp [h, hx])
    by_cases hi : s.currentState = cfg.IDLE <;>
      simp [getRxData, hi, Bus.writeMCS, h, hnone, hr] <;> exact hrs

/-- On a controller that reports no error the receive loop runs to its end and
writes one command per byte: RUN with ACK, and RUN without ACK for the byte
with index `q - 1`. -/
theorem requestFrom_loop_ok_log (cfg : Config) (q runBit : Nat)
    (hnone : cfg.I2C_MASTER_ERR_NONE = 0) :
    ∀ (n i : Nat) (s : TwoWire), i + n ≤ q → (∀ r ∈ s.bus.replies, r.err % 256 = 0) →
      (requestFrom.loop cfg q runBit n i 8 s).1 = none ∧
      (requestFrom.loop cfg q runBit n i 8 s).2.bus.log
        = s.bus.log ++ (List.range' i n).map
            (fun j => BusOp.mcs (runBit ||| (if j = q - 1 then 0 else 8))) ∧
      (requestFrom.loop cfg q runBit n i 8 s).2.currentState = s.currentState := by
  intro n
  induction n with
  | zero => intro i s _ _; simp [requestFrom.loop]
  | succ n ih =>
    intro i s hin herr
    obtain ⟨g1, g2, g3, g4⟩ := getRxData_ok_log cfg s
      (runBit ||| (if i = q - 1 then 0 else 8)) hnone herr
    simp only [requestFrom.loop, g1, ne_eq, not_true_eq_false, if_false, List.range'_succ,
      List.map_cons]
    by_cases hi : i = q - 1
    · have hn : n = 0 := by omega
      subst hn
      simp only [hi, if_true] at g2 g3 ⊢
      simp only [requestFrom.loop, List.range'_zero, List.map_nil]
      exact ⟨trivial, g2, g3⟩
    · simp only [hi, if_false] at g2 g3 g4 ⊢
      obtain ⟨i1, i2, i3⟩ := ih (i + 1) _ (by omega) g4
      refine ⟨i1, ?_, ?_⟩
      · rw [i2, g2]
        simp
      · rw [i3, g3]

/-- On a controller that reports no error, a `requestFrom` of at least one byte
that fits the free space writes the address for receive, one first command
RUN|START?|ACK, one command per further byte and, when `sendStop` is set, the
STOP command; the state it leaves is IDLE when `sendStop` is set and MASTER_RX
otherwise. -/
theorem requestFrom_ok_log (cfg : Config) (s : TwoWire) (address q sendStop : Nat)
    (hnone : cfg.I2C_MASTER_ERR_NONE = 0)
    (herr : ∀ r ∈ s.bus.replies, r.err % 256 = 0)
    (hq : 1 ≤ q) (hfit : q ≤ spaceAvailable cfg s) :
    (requestFrom cfg s address q sendStop).2.bus.log
      = s.bus.log ++
        (BusOp.slaveAddrSet address true ::
          BusOp.mcs (1 ||| (if s.currentState = cfg.MASTER_RX then 0 else 2) ||| 8) ::
          (List.range' 1 (q - 1)).map
            (fun j => BusOp.mcs (1 ||| (if j = q - 1 then 0 else 8)))) ++
        (if sendStop ≠ 0 then [BusOp.mcs 4] else []) ∧
    (requestFrom cfg s address q sendStop).2.currentState
      = (if sendStop ≠ 0 then cfg.IDLE else cfg.MASTER_RX) := by
  have herr0 : ∀ r ∈ ({ s with bus := s.bus.record (BusOp.slaveAddrSet address true) }
      : TwoWire).bus.replies, r.err % 256 = 0 := by simpa [Bus.record] using herr
  have e := fun cmd => getRxData_ok_log cfg
    { s with bus := s.bus.record (BusOp.slaveAddrSet address true) } cmd hnone herr0
  have he : ∀ cmd, (getRxData cfg
    { s with bus := s.bus.record (BusOp.slaveAddrSet address true) } cmd).1 = 0 :=
    fun cmd => (e cmd).1
  have hq0 : q ≠ 0 := by omega
  have hgt : ¬ q > spaceAvailable cfg s := by omega
  unfold requestFrom
  simp only [hgt, if_false, hq0, he, ne_eq, not_true_eq_false, not_false_eq_true, if_true]
  generalize hp : requestFrom.loop cfg _ _ _ _ _ _ = p
  obtain ⟨l1, l2, l3⟩ := requestFrom_loop_ok_log cfg q 1 hnone (q - 1) 1 _ (by omega)
    (e (1 ||| (if s.currentState = cfg.MASTER_RX then 0 else 2) ||| 8)).2.2.2
  rw [hp] at l1 l2 l3
  obtain ⟨a, t⟩ := p
  simp only at l1 l2 l3
  subst l1
  rw [(e _).2.1] at l2
  dsimp only
  constructor
  · by_cases hs : sendStop = 0
    · simp [hs, l2, Bus.record]
    · simp [hs, l2, Bus.record, Bus.writeMCS]
  · by_cases hs : sendStop = 0 <;> simp [hs]

/-- The quantity of `requestFrom` counts only up to the free space. -/
theorem requestFrom_clip (cfg : Config) (s : TwoWire) (address quantity sendStop : Nat) :
    requestFrom cfg s address quantity sendStop
      = requestFrom cfg s address (min quantity (spaceAvailable cfg s)) sendStop := by
  by_cases h : quantity > spaceAvailable cfg s
  · have h1 : min quantity (spaceAvailable cfg s) = spaceAvailable cfg s :=
      Nat.min_eq_right (Nat.le_of_lt h)
    have h2 : ¬ spaceAvailable cfg s > spaceAvailable cfg s := Nat.lt_irrefl _
    rw [h1]
    unfold requestFrom
    simp only [h, h2, if_true, if_false]
  · have h1 : min quantity (spaceAvailable cfg s) = quantity :=
      Nat.min_eq_left (Nat.le_of_not_lt h)
    rw [h1]

theorem mcsCommands_append (a b : List BusOp) :
    mcsCommands (a ++ b) = mcsCommands a ++ mcsCommands b := by
  simp [mcsCommands, List.filterMap_append]

theorem mcsCommands_map_mcs (f : Nat → Nat) (l : List Nat) :
    mcsCommands (l.map (fun j => BusOp.mcs (f j))) = l.map f := by
  induction l with
  | nil => rfl
  | cons a l ih =>
    have : mcsCommands (BusOp.mcs (f a) :: l.map (fun j => BusOp.mcs (f j)))
        = f a :: mcsCommands (l.map (fun j => BusOp.mcs (f j))) := by simp [mcsCommands]
    rw [List.map_cons, List.map_cons, this, ih]

/-- The commands of an error-free `requestFrom` of `q` bytes, `1 ≤ q` and `q`
no more than the free space. -/
theorem requestFrom_ok_commands (cfg : Config) (s : TwoWire) (address q sendStop : Nat)
    (hnone : cfg.I2C_MASTER_ERR_NONE = 0)
    (herr : ∀ r ∈ s.bus.replies, r.err % 256 = 0)
    (hq : 1 ≤ q) (hfit : q ≤ spaceAvailable cfg s) :
    mcsCommands (issued s (requestFrom cfg s address q sendStop).2)
      = ((1 ||| (if s.currentState = cfg.MASTER_RX then 0 else 2) ||| 8) ::
          (List.range' 1 (q - 1)).map (fun j => 1 ||| (if j = q - 1 then 0 else 8))) ++
        (if sendStop ≠ 0 then [4] else []) := by
  have hlog := (requestFrom_ok_log cfg s address q sendStop hnone herr hq hfit).1
  rw [List.append_assoc] at hlog
  rw [issued_of_log hlog, mcsCommands_append]
  have h1 : mcsCommands (BusOp.slaveAddrSet address true ::
      BusOp.mcs (1 ||| (if s.currentState = cfg.MASTER_RX then 0 else 2) ||| 8) ::
      (List.range' 1 (q - 1)).map (fun j => BusOp.mcs (1 ||| (if j = q - 1 then 0 else 8))))
      = (1 ||| (if s.currentState = cfg.MASTER_RX then 0 else 2) ||| 8) ::
        mcsCommands ((List.range' 1 (q - 1)).map
          (fun j => BusOp.mcs (1 ||| (if j = q - 1 then 0 else 8)))) := by
    simp [mcsCommands]
  rw [h1, mcsCommands_map_mcs (fun j => 1 ||| (if j = q - 1 then 0 else 8))]
  by_cases hs : sendStop = 0 <;> simp [hs, mcsCommands]

theorem u8_natCast_le (n : Nat) : u8 (n : Int) ≤ n := by
  rw [u8_natCast]
  exact Nat.mod_le _ _

theorem outOfRangeKept_same (cfg : Config) (s : TwoWire) : OutOfRangeKept cfg s s :=
  fun _ _ => ⟨rfl, rfl⟩

theorem outOfRangeKept_chain {cfg : Config} {s t u : TwoWire}
    (h1 : OutOfRangeKept cfg s t) (h2 : OutOfRangeKept cfg t u) : OutOfRangeKept cfg s u :=
  fun x hx => ⟨(h2 x hx).1.trans (h1 x hx).1, (h2 x hx).2.trans (h1 x hx).2⟩

/-- Whatever the controller answers, `getRxData` keeps the indices in range and
stores only below `BUFFER_LENGTH`. -/
theorem getRxData_keeps (cfg : Config) (s : TwoWire) (cmd : Nat)
    (hB : 0 < cfg.BUFFER_LENGTH) (h : IndexInv cfg s) :
    IndexInv cfg (getRxData cfg s cmd).2 ∧ OutOfRangeKept cfg s (getRxData cfg s cmd).2 := by
  obtain ⟨h1, h2, h3⟩ := h
  have hw : u8 (((s.rxWriteIndex + 1) % cfg.BUFFER_LENGTH : Nat)) < cfg.BUFFER_LENGTH :=
    Nat.lt_of_le_of_lt (u8_natCast_le _) (Nat.mod_lt _ hB)
  have hst : ∀ v x, cfg.BUFFER_LENGTH ≤ x → store s.rxBuffer s.rxWriteIndex v x = s.rxBuffer x := by
    intro v x hx
    have hne : x ≠ s.rxWriteIndex := by omega
    simp [store, hne]
  unfold getRxData
  dsimp only
  split <;> split
  all_goals first
    | exact ⟨⟨h1, h2, h3⟩, fun _ _ => ⟨rfl, rfl⟩⟩
    | exact ⟨⟨h1, hw, h3⟩, fun x hx => ⟨hst _ x hx, rfl⟩⟩

/-- Whatever the controller answers, the receive loop keeps the indices in
range and stores only below `BUFFER_LENGTH`. -/
theorem requestFrom_loop_keeps (cfg : Config) (q runBit : Nat) (hB : 0 < cfg.BUFFER_LENGTH) :
    ∀ (n i ackBit : Nat) (s : TwoWire), IndexInv cfg s →
      IndexInv cfg (requestFrom.loop cfg q runBit n i ackBit s).2 ∧
      OutOfRangeKept cfg s (requestFrom.loop cfg q runBit n i ackBit s).2 := by
  intro n
  induction n with
  | zero => intro i ackBit s h; exact ⟨h, outOfRangeKept_same cfg s⟩
  | succ n ih =>
    intro i ackBit s h
    obtain ⟨g1, g2⟩ := getRxData_keeps cfg s
      (runBit ||| (if i = q - 1 then 0 else ackBit)) hB h
    rw [requestFrom.loop]
    by_cases hne : (getRxData cfg s (runBit ||| (if i = q - 1 then 0 else ackBit))).1 ≠ 0
    · rw [if_pos hne]
      exact ⟨g1, g2⟩
    · rw [if_neg hne]
      obtain ⟨i1, i2⟩ := ih (i + 1) (if i = q - 1 then 0 else ackBit) _ g1
      exact ⟨i1, outOfRangeKept_chain g2 i2⟩

/-- Whatever the controller answers, `requestFrom` keeps the indices in range
and stores only below `BUFFER_LENGTH`. -/
theorem requestFrom_keeps (cfg : Config) (s : TwoWire) (address quantity sendStop : Nat)
    (hB : 0 < cfg.BUFFER_LENGTH) (h : IndexInv cfg s) :
    IndexInv cfg (requestFrom cfg s address quantity sendStop).2 ∧
    OutOfRangeKept cfg s (requestFrom cfg s address quantity sendStop).2 := by
  have h0 : IndexInv cfg { s with bus := s.bus.record (BusOp.slaveAddrSet address true) } := h
  unfold requestFrom
  dsimp only
  generalize (if quantity > spaceAvailable cfg s then spaceAvailable cfg s else quantity) = q
  by_cases hq : q = 0
  · rw [if_pos hq]
    exact ⟨h, outOfRangeKept_same cfg s⟩
  · rw [if_neg hq]
    generalize hr : getRxData cfg _ _ = r
    have hr2 : IndexInv cfg r.2 ∧ OutOfRangeKept cfg s r.2 := by
      rw [← hr]
      exact getRxData_keeps cfg _ _ hB h0
    by_cases hr1 : r.1 ≠ 0
    · rw [if_pos hr1]
      exact hr2
    · rw [if_neg hr1]
      generalize hp : requestFrom.loop cfg _ _ _ _ _ _ = p
      have hp2 : IndexInv cfg p.2 ∧ OutOfRangeKept cfg r.2 p.2 := by
        rw [← hp]
        exact requestFrom_loop_keeps cfg _ _ hB _ _ _ _ hr2.1
      obtain ⟨a, t⟩ := p
      have hk : OutOfRangeKept cfg s t := outOfRangeKept_chain hr2.2 hp2.2
      cases a with
      | some i => exact ⟨hp2.1, hk⟩
      | none =>
        dsimp only
        split
        · exact ⟨hp2.1, hk⟩
        · exact ⟨hp2.1, hk⟩

/-- The transmit loop changes neither an index nor a buffer. -/
theorem endTransmission_loop_frame (cfg : Config) (runBit : Nat) :
    ∀ (n i e : Nat) (s : TwoWire),
      (endTransmission.loop cfg runBit n i e s).2.2.rxReadIndex = s.rxReadIndex ∧
      (endTransmission.loop cfg runBit n i e s).2.2.rxWriteIndex = s.rxWriteIndex ∧
      (endTransmission.loop cfg runBit n i e s).2.2.txWriteIndex = s.txWriteIndex ∧
      (endTransmission.loop cfg runBit n i e s).2.2.rxBuffer = s.rxBuffer ∧
      (endTransmission.loop cfg runBit n i e s).2.2.txBuffer = s.txBuffer := by
  intro n
  induction n with
  | zero => intro i e s; exact ⟨rfl, rfl, rfl, rfl, rfl⟩
  | succ n ih =>
    intro i e s
    rw [endTransmission.loop]
    by_cases hne : (sendTxData cfg s runBit (s.txBuffer i)).1 ≠ 0
    · rw [if_pos hne]
      exact ⟨rfl, rfl, rfl, rfl, rfl⟩
    · rw [if_neg hne]
      exact ih (i + 1) _ (sendTxData cfg s runBit (s.txBuffer i)).2

/-- Whatever the controller answers, `endTransmission` changes no receive
index and no buffer, and leaves `txWriteIndex` as it was or at 0. -/
theorem endTransmission_frame (cfg : Config) (s : TwoWire) (sendStop : Nat) :
    (endTransmission cfg s sendStop).2.rxReadIndex = s.rxReadIndex ∧
    (endTransmission cfg s sendStop).2.rxWriteIndex = s.rxWriteIndex ∧
    ((endTransmission cfg s sendStop).2.txWriteIndex = s.txWriteIndex ∨
      (endTransmission cfg s sendStop).2.txWriteIndex = 0) ∧
    (endTransmission cfg s sendStop).2.rxBuffer = s.rxBuffer ∧
    (endTransmission cfg s sendStop).2.txBuffer = s.txBuffer := by
  unfold endTransmission
  dsimp only
  by_cases hE : TX_BUFFER_EMPTY s = true
  · rw [if_pos hE]
    exact ⟨rfl, rfl, Or.inl rfl, rfl, rfl⟩
  · rw [if_neg hE]
    generalize hr : sendTxData cfg _ _ _ = r
    have hr2 : r.2.rxReadIndex = s.rxReadIndex ∧ r.2.rxWriteIndex = s.rxWriteIndex ∧
        r.2.txWriteIndex = s.txWriteIndex ∧ r.2.rxBuffer = s.rxBuffer ∧
        r.2.txBuffer = s.txBuffer := by
      rw [← hr]
      exact ⟨rfl, rfl, rfl, rfl, rfl⟩
    by_cases hr1 : r.1 ≠ 0
    · rw [if_pos hr1]
      exact ⟨hr2.1, hr2.2.1, Or.inl hr2.2.2.1, hr2.2.2.2.1, hr2.2.2.2.2⟩
    · rw [if_neg hr1]
      generalize hp : endTransmission.loop cfg _ _ _ _ _ = p
      have hp2 : p.2.2.rxReadIndex = r.2.rxReadIndex ∧ p.2.2.rxWriteIndex = r.2.rxWriteIndex ∧
          p.2.2.txWriteIndex = r.2.txWriteIndex ∧ p.2.2.rxBuffer = r.2.rxBuffer ∧
          p.2.2.txBuffer = r.2.txBuffer := by
        rw [← hp]
        exact endTransmission_loop_frame cfg _ _ _ _ _
      obtain ⟨a, e, t⟩ := p
      obtain ⟨p1, p2, p3, p4, p5⟩ := hp2
      obtain ⟨r1, r2, r3, r4, r5⟩ := hr2
      dsimp only at p1 p2 p3 p4 p5
      cases a with
      | some x =>
        exact ⟨p1.trans r1, p2.trans r2, Or.inl (p3.trans r3), p4.trans r4, p5.trans r5⟩
      | none =>
        dsimp only
        split
        · exact ⟨p1.trans r1, p2.trans r2, Or.inr rfl, p4.trans r4, p5.trans r5⟩
        · exact ⟨p1.trans r1, p2.trans r2, Or.inr rfl, p4.trans r4, p5.trans r5⟩

/-- Whatever the controller answers, `endTransmission` keeps the indices in
range and stores nothing. -/
theorem endTransmission_keeps (cfg : Config) (s : TwoWire) (sendStop : Nat)
    (h : IndexInv cfg s) :
    IndexInv cfg (endTransmission cfg s sendStop).2 ∧
    OutOfRangeKept cfg s (endTransmission cfg s sendStop).2 := by
  obtain ⟨f1, f2, f3, f4, f5⟩ := endTransmission_frame cfg s sendStop
  obtain ⟨h1, h2, h3⟩ := h
  refine ⟨⟨by rw [f1]; exact h1, by rw [f2]; exact h2, ?_⟩, fun x _ => ⟨by rw [f4], by rw [f5]⟩⟩
  rcases f3 with f3 | f3
  · rw [f3]; exact h3
  · rw [f3]; exact Nat.zero_le _

/-- A `write(byte)` keeps the indices in range and stores only below
`BUFFER_LENGTH`. -/
theorem write_keeps (cfg : Config) (s : TwoWire) (d : Nat) (h : IndexInv cfg s) :
    IndexInv cfg (write cfg s d).2 ∧ OutOfRangeKept cfg s (write cfg s d).2 := by
  obtain ⟨h1, h2, h3⟩ := h
  unfold write
  by_cases ht : s.transmitting ≠ 0
  · rw [if_pos ht]
    by_cases hf : TX_BUFFER_FULL cfg s = true
    · rw [if_pos hf]
      exact ⟨⟨h1, h2, h3⟩, fun _ _ => ⟨rfl, rfl⟩⟩
    · rw [if_neg hf]
      have hlt : s.txWriteIndex < cfg.BUFFER_LENGTH := by
        simp only [TX_BUFFER_FULL, beq_iff_eq] at hf
        omega
      have hu : u8 ((s.txWriteIndex : Int) + 1) ≤ cfg.BUFFER_LENGTH := by
        have := u8_natCast_le (s.txWriteIndex + 1)
        push_cast at this
        omega
      refine ⟨⟨h1, h2, hu⟩, fun x hx => ⟨rfl, ?_⟩⟩
      have hne : x ≠ s.txWriteIndex := by omega
      simp [store, hne]
  · rw [if_neg ht]
    exact ⟨⟨h1, h2, h3⟩, fun _ _ => ⟨rfl, rfl⟩⟩

/-- A bulk `write` keeps the indices in range and stores only below
`BUFFER_LENGTH`. -/
theorem writeBuffer_loop_keeps (cfg : Config) :
    ∀ (ds : List Nat) (s : TwoWire), IndexInv cfg s →
      IndexInv cfg (writeBuffer.loop cfg s ds) ∧
      OutOfRangeKept cfg s (writeBuffer.loop cfg s ds) := by
  intro ds
  induction ds with
  | nil => intro s h; exact ⟨h, outOfRangeKept_same cfg s⟩
  | cons d ds ih =>
    intro s h
    obtain ⟨w1, w2⟩ := write_keeps cfg s d h
    obtain ⟨i1, i2⟩ := ih (write cfg s d).2 w1
    rw [writeBuffer.loop]
    exact ⟨i1, outOfRangeKept_chain w2 i2⟩

/-- A `read` keeps the indices in range and stores nothing. -/
theorem read_keeps (cfg : Config) (s : TwoWire) (hB : 0 < cfg.BUFFER_LENGTH)
    (h : IndexInv cfg s) :
    IndexInv cfg (read cfg s).2 ∧ OutOfRangeKept cfg s (read cfg s).2 := by
  obtain ⟨h1, h2, h3⟩ := h
  have hr : u8 (((s.rxReadIndex + 1) % cfg.BUFFER_LENGTH : Nat)) < cfg.BUFFER_LENGTH :=
    Nat.lt_of_le_of_lt (u8_natCast_le _) (Nat.mod_lt _ hB)
  unfold read
  split
  · exact ⟨⟨hr, h2, h3⟩, fun _ _ => ⟨rfl, rfl⟩⟩
  · exact ⟨⟨h1, h2, h3⟩, fun _ _ => ⟨rfl, rfl⟩⟩

/-! ### The claims -/

/-- C1 (code at the failing input): on the empty RX buffer that `begin()`
leaves (`rxReadIndex = rxWriteIndex = 0`, `BUFFER_LENGTH = 32`) `read()` does
not return -1: it returns the content of `rxBuffer[0]`, advances `rxReadIndex`
to 1 and `available()` becomes 31, while `peek()` on the same state reports -1. -/
theorem read_on_empty_buffer_consumes :
    RX_BUFFER_EMPTY (TwoWire.init (Bus.serving [])) = true ∧
    (read cfg32 (TwoWire.init (Bus.serving []))).1 = 0 ∧
    (read cfg32 (TwoWire.init (Bus.serving []))).2.rxReadIndex = 1 ∧
    available cfg32 (read cfg32 (TwoWire.init (Bus.serving []))).2 = 31 ∧
    peek (TwoWire.init (Bus.serving [])) = -1 := by
  decide

/-- C2 (code at the failing input): after an error-free `requestFrom` of 31
bytes into the empty buffer (`BUFFER_LENGTH = 32`) the buffer is not empty
(`rxReadIndex = 0`, `rxWriteIndex = 31`, `available()` is 31), yet `read()`
returns -1 and leaves `rxReadIndex` and `available()` as they were. -/
theorem read_on_full_buffer_returns_minus_one :
    (requestFrom cfg32 (TwoWire.init (Bus.serving (List.range 31))) 80 31 1).2.rxReadIndex = 0 ∧
    (requestFrom cfg32 (TwoWire.init (Bus.serving (List.range 31))) 80 31 1).2.rxWriteIndex = 31 ∧
    available cfg32 (requestFrom cfg32 (TwoWire.init (Bus.serving (List.range 31))) 80 31 1).2 = 31 ∧
    (read cfg32 (requestFrom cfg32 (TwoWire.init (Bus.serving (List.range 31))) 80 31 1).2).1 = -1 ∧
    (read cfg32
      (requestFrom cfg32 (TwoWire.init (Bus.serving (List.range 31))) 80 31 1).2).2.rxReadIndex
      = 0 ∧
    available cfg32
      (read cfg32 (requestFrom cfg32 (TwoWire.init (Bus.serving (List.range 31))) 80 31 1).2).2
      = 31 := by
  decide

/-- C3 (code at the failing input): an error-free `requestFrom(80, 5, true)` into
the empty buffer (`BUFFER_LENGTH = 32`) stores the 5 bytes delivered
(`rxWriteIndex` goes from 0 to 5, `available()` is 5) and returns 27. -/
theorem requestFrom_returns_complement_of_stored :
    (requestFrom cfg32 (TwoWire.init (Bus.serving [17, 18, 19, 20, 21])) 80 5 1).1 = 27 ∧
    (requestFrom cfg32 (TwoWire.init (Bus.serving [17, 18, 19, 20, 21])) 80 5 1).2.rxWriteIndex
      = 5 ∧
    available cfg32 (requestFrom cfg32 (TwoWire.init (Bus.serving [17, 18, 19, 20, 21])) 80 5 1).2
      = 5 ∧
    (List.range 6).map
        (requestFrom cfg32 (TwoWire.init (Bus.serving [17, 18, 19, 20, 21])) 80 5 1).2.rxBuffer
      = [17, 18, 19, 20, 21, 0] := by
  decide

/-- C4 (code at the failing input): with `BUFFER_LENGTH = 32` and an empty buffer
(`available()` is 0, so 31 free slots) an error-free `requestFrom(80, 32, true)`
stores 32 bytes, one in every slot of `rxBuffer`; `rxWriteIndex` wraps onto
`rxReadIndex`, so afterwards `available()` is 0 and `peek()` is -1. -/
theorem requestFrom_fills_every_slot :
    available cfg32 (TwoWire.init (Bus.serving ((List.range 32).map (· + 1)))) = 0 ∧
    (∀ i, i < 32 →
      (requestFrom cfg32 (TwoWire.init (Bus.serving ((List.range 32).map (· + 1)))) 80 32
        1).2.rxBuffer i = i + 1) ∧
    (requestFrom cfg32 (TwoWire.init (Bus.serving ((List.range 32).map (· + 1)))) 80 32
      1).2.bus.replies = [] ∧
    (requestFrom cfg32 (TwoWire.init (Bus.serving ((List.range 32).map (· + 1)))) 80 32
      1).2.rxWriteIndex = 0 ∧
    available cfg32
      (requestFrom cfg32 (TwoWire.init (Bus.serving ((List.range 32).map (· + 1)))) 80 32 1).2
      = 0 ∧
    peek (requestFrom cfg32 (TwoWire.init (Bus.serving ((List.range 32).map (· + 1)))) 80 32 1).2
      = -1 := by
  decide

/-- C5: partial receive on a hardware error.  The request `q` is within the free
space, `1 ≤ k ≤ q`, the controller answers the first `k - 1` commands without
error (`good`) and the `k`-th with an error (`bad`).  Then `requestFrom` returns
`k - 1`, leaves `rxReadIndex` alone, advances `rxWriteIndex` by `k - 1` modulo
`BUFFER_LENGTH`, holds the `k - 1` bytes received in order in the slots from
the old write index on, and changes no other slot of `rxBuffer`. -/
theorem requestFrom_abort_returns_progress (cfg : Config) (s : TwoWire)
    (address q sendStop k : Nat) (good : List Reply) (bad : Reply) (rest : List Reply)
    (hcfg : cfg.Valid)
    (hr : s.rxReadIndex < cfg.BUFFER_LENGTH) (hw : s.rxWriteIndex < cfg.BUFFER_LENGTH)
    (hk : 1 ≤ k) (hkq : k ≤ q) (hq : q ≤ spaceAvailable cfg s)
    (hs : s.bus.replies = good ++ bad :: rest) (hlen : good.length = k - 1)
    (hgood : ∀ r ∈ good, r.err % 256 = 0) (hbad : bad.err % 256 ≠ 0) :
    (requestFrom cfg s address q sendStop).1 = k - 1 ∧
    (requestFrom cfg s address q sendStop).2.rxReadIndex = s.rxReadIndex ∧
    (requestFrom cfg s address q sendStop).2.rxWriteIndex
      = (s.rxWriteIndex + (k - 1)) % cfg.BUFFER_LENGTH ∧
    (∀ j r, good[j]? = some r →
      (requestFrom cfg s address q sendStop).2.rxBuffer
        ((s.rxWriteIndex + j) % cfg.BUFFER_LENGTH) = r.data % 256) ∧
    (∀ x, (∀ j, j < k - 1 → x ≠ (s.rxWriteIndex + j) % cfg.BUFFER_LENGTH) →
      (requestFrom cfg s address q sendStop).2.rxBuffer x = s.rxBuffer x) := by
  obtain ⟨hB0, hB, -, -, -, hnone, -, -, -⟩ := hcfg
  have hsp := spaceAvailable_le cfg s hr hw
  obtain ⟨h1, a1, -, a3, a4, a5⟩ := requestFrom_abort_key cfg s address q sendStop good bad rest
    hnone hB0 (by omega) hw (by omega) hq (by omega) hs hgood hbad
  simp only [List.length_map] at a3 a4 a5
  refine ⟨?_, a1, ?_, ?_, ?_⟩
  · rw [h1, u8_of_lt (by omega), hlen]
  · rw [a3, hlen]
  · intro j r hj
    obtain ⟨hjl, hjr⟩ := List.getElem?_eq_some.1 hj
    rw [a4 j hjl]
    simp [List.getD, hj]
  · intro x hx
    exact a5 x (fun j hj => hx j (by omega))

/-- C5 (witness): `requestFrom(80, 5, true)` on the empty buffer with a data NACK
(raw error 8) on the 3rd byte returns 2; the buffer holds the 2 bytes received,
7 and 9, in slots 0 and 1 and nothing else changed. -/
theorem requestFrom_abort_returns_progress_witness :
    cfg32.Valid ∧ 5 ≤ spaceAvailable cfg32 (TwoWire.init (Bus.failingAfter [7, 9] 8)) ∧
    (requestFrom cfg32 (TwoWire.init (Bus.failingAfter [7, 9] 8)) 80 5 1).1 = 2 ∧
    (requestFrom cfg32 (TwoWire.init (Bus.failingAfter [7, 9] 8)) 80 5 1).2.rxReadIndex = 0 ∧
    (requestFrom cfg32 (TwoWire.init (Bus.failingAfter [7, 9] 8)) 80 5 1).2.rxWriteIndex = 2 ∧
    (requestFrom cfg32 (TwoWire.init (Bus.failingAfter [7, 9] 8)) 80 5 1).2.rxBuffer 0 = 7 ∧
    (requestFrom cfg32 (TwoWire.init (Bus.failingAfter [7, 9] 8)) 80 5 1).2.rxBuffer 1 = 9 ∧
    (∀ x, x ≠ 0 → x ≠ 1 →
      (requestFrom cfg32 (TwoWire.init (Bus.failingAfter [7, 9] 8)) 80 5 1).2.rxBuffer x = 0) := by
  have h := requestFrom_abort_returns_progress cfg32 (TwoWire.init (Bus.failingAfter [7, 9] 8))
    80 5 1 3 [⟨0, 0, 7⟩, ⟨0, 0, 9⟩] ⟨0, 8, 0⟩ [] (by decide) (by decide) (by decide)
    (by decide) (by decide) (by decide) rfl rfl (by decide) (by decide)
  refine ⟨by decide, by decide, h.1, h.2.1, h.2.2.1, h.2.2.2.1 0 _ rfl, h.2.2.2.1 1 _ rfl, ?_⟩
  intro x h0 h1
  apply h.2.2.2.2
  intro j hj
  have hj2 : j = 0 ∨ j = 1 := by omega
  rcases hj2 with rfl | rfl
  · exact h0
  · exact h1

/-- C6 (code at the failing input): a first `requestFrom(80, 1, false)` leaves
the state MASTER_RX; a following `requestFrom(80, 5, true)` that meets a data
NACK on its 3rd byte returns 2 and leaves the state MASTER_RX, not IDLE. -/
theorem requestFrom_abort_keeps_state :
    (requestFrom cfg32 (TwoWire.init (Bus.failingAfter [1, 2, 3] 8)) 80 1 0).2.currentState
      = cfg32.MASTER_RX ∧
    (requestFrom cfg32
      (requestFrom cfg32 (TwoWire.init (Bus.failingAfter [1, 2, 3] 8)) 80 1 0).2 80 5 1).1 = 2 ∧
    (requestFrom cfg32
      (requestFrom cfg32 (TwoWire.init (Bus.failingAfter [1, 2, 3] 8)) 80 1 0).2 80 5
        1).2.currentState = cfg32.MASTER_RX ∧
    cfg32.MASTER_RX ≠ cfg32.IDLE := by
  decide

/-- C7 (code at the failing input): three bytes are queued for address 80 and
the first byte meets a data NACK (raw error 8): `endTransmission(true)` returns
3 with `txWriteIndex` still 3 and the transmitting flag still 1.  Right after
`beginTransmission(80)`, with nothing queued, `endTransmission(true)` returns 0
with the transmitting flag still 1. -/
theorem endTransmission_abort_skips_cleanup :
    (endTransmission cfg32
      (writeBuffer cfg32 (beginTransmission (TwoWire.init (Bus.failingAfter [] 8)) 80)
        [1, 2, 3]).2 1).1 = 3 ∧
    (endTransmission cfg32
      (writeBuffer cfg32 (beginTransmission (TwoWire.init (Bus.failingAfter [] 8)) 80)
        [1, 2, 3]).2 1).2.txWriteIndex = 3 ∧
    (endTransmission cfg32
      (writeBuffer cfg32 (beginTransmission (TwoWire.init (Bus.failingAfter [] 8)) 80)
        [1, 2, 3]).2 1).2.transmitting = 1 ∧
    (endTransmission cfg32 (beginTransmission (TwoWire.init (Bus.serving [])) 80) 1).1 = 0 ∧
    (endTransmission cfg32 (beginTransmission (TwoWire.init (Bus.serving [])) 80)
      1).2.transmitting = 1 := by
  decide

/-- C8 (code at the failing input): three bytes are queued for address 80.  A
data NACK (raw error 8) on the first byte makes `endTransmission` return 3; the
same data NACK on the second byte makes it return 4, and an arbitration loss
(raw error 16) on the second byte makes it return 2, the address-NACK code. -/
theorem endTransmission_error_depends_on_position :
    getError cfg32 8 = 3 ∧ getError cfg32 16 = 4 ∧
    (endTransmission cfg32
      (writeBuffer cfg32 (beginTransmission (TwoWire.init (Bus.failingAfter [] 8)) 80)
        [1, 2, 3]).2 1).1 = 3 ∧
    (endTransmission cfg32
      (writeBuffer cfg32 (beginTransmission (TwoWire.init (Bus.failingAfter [0] 8)) 80)
        [1, 2, 3]).2 1).1 = 4 ∧
    (endTransmission cfg32
      (writeBuffer cfg32 (beginTransmission (TwoWire.init (Bus.failingAfter [0] 16)) 80)
        [1, 2, 3]).2 1).1 = 2 := by
  decide

/-- C9 (code at the failing input): after `beginTransmission(80)` with
`BUFFER_LENGTH = 32`, a bulk write of 40 bytes returns 40 although
`txWriteIndex` only grows from 0 to 32 and the write-error flag is set. -/
theorem writeBuffer_returns_quantity_when_full :
    (beginTransmission (TwoWire.init (Bus.serving [])) 80).txWriteIndex = 0 ∧
    (writeBuffer cfg32 (beginTransmission (TwoWire.init (Bus.serving [])) 80)
      (List.range 40)).1 = 40 ∧
    (writeBuffer cfg32 (beginTransmission (TwoWire.init (Bus.serving [])) 80)
      (List.range 40)).2.txWriteIndex = 32 ∧
    (writeBuffer cfg32 (beginTransmission (TwoWire.init (Bus.serving [])) 80)
      (List.range 40)).2.writeError = 1 := by
  decide

/-- C10 (counterexample): with `BUFFER_LENGTH = 32`, the 32nd consecutive
`write(byte)` after `beginTransmission(80)` is accepted and returns 1; only the
33rd returns 0. -/
theorem write_thirty_second_call_accepted :
    (writeEach cfg32 (beginTransmission (TwoWire.init (Bus.serving [])) 80)
      (List.replicate 33 170)).1 = List.replicate 32 1 ++ [0] := by
  decide

/-- C10 (amended): with `BUFFER_LENGTH` at most 255, starting from
`beginTransmission(address)`, `BUFFER_LENGTH` consecutive `write(byte)` calls are
accepted (each returns 1) and the next call finds the buffer full and returns 0. -/
theorem write_accepts_buffer_length (cfg : Config) (s : TwoWire) (address extra : Nat)
    (bytes : List Nat) (hB : cfg.BUFFER_LENGTH ≤ 255)
    (hlen : bytes.length = cfg.BUFFER_LENGTH) :
    (writeEach cfg (beginTransmission s address) bytes).1
      = List.replicate cfg.BUFFER_LENGTH 1 ∧
    (write cfg (writeEach cfg (beginTransmission s address) bytes).2 extra).1 = 0 := by
  obtain ⟨h1, h2, h3⟩ := writeEach_fits cfg hB bytes (beginTransmission s address)
    (by simp [beginTransmission]) (by simp [beginTransmission, hlen])
  refine ⟨by rw [h1, hlen], ?_⟩
  have ht : (writeEach cfg (beginTransmission s address) bytes).2.transmitting ≠ 0 := by
    rw [h3]; simp [beginTransmission]
  have hfull : TX_BUFFER_FULL cfg (writeEach cfg (beginTransmission s address) bytes).2
      = true := by
    rw [TX_BUFFER_FULL, h2]
    simp [beginTransmission, hlen]
  unfold write
  rw [if_pos ht, if_pos hfull]

/-- C10 (witness): with `BUFFER_LENGTH = 32`, 32 writes after
`beginTransmission(80)` return 1 each and the 33rd returns 0. -/
theorem write_accepts_buffer_length_witness :
    cfg32.BUFFER_LENGTH ≤ 255 ∧
    (writeEach cfg32 (beginTransmission (TwoWire.init (Bus.serving [])) 80)
      (List.replicate 32 170)).1 = List.replicate 32 1 ∧
    (write cfg32 (writeEach cfg32 (beginTransmission (TwoWire.init (Bus.serving [])) 80)
      (List.replicate 32 170)).2 99).1 = 0 :=
  ⟨by decide, write_accepts_buffer_length cfg32 (TwoWire.init (Bus.serving [])) 80 99
    (List.replicate 32 170) (by decide) (by decide)⟩

/-- C11: writing to a full TX buffer is a no-op.  With `transmitting` set and
`txWriteIndex == BUFFER_LENGTH`, `write(byte)` returns 0, sets the write-error
flag and leaves `txBuffer` and `txWriteIndex` unchanged; and whenever
`write(byte)` returns 0, `txBuffer` and `txWriteIndex` are unchanged. -/
theorem write_full_is_noop (cfg : Config) (s : TwoWire) (data : Nat) :
    (s.transmitting ≠ 0 → s.txWriteIndex = cfg.BUFFER_LENGTH →
      (write cfg s data).1 = 0 ∧ (write cfg s data).2.writeError = 1 ∧
      (write cfg s data).2.txBuffer = s.txBuffer ∧
      (write cfg s data).2.txWriteIndex = s.txWriteIndex) ∧
    ((write cfg s data).1 = 0 →
      (write cfg s data).2.txBuffer = s.txBuffer ∧
      (write cfg s data).2.txWriteIndex = s.txWriteIndex) := by
  constructor
  · intro ht hfull
    have hf : TX_BUFFER_FULL cfg s = true := by simp [TX_BUFFER_FULL, hfull]
    unfold write
    rw [if_pos ht, if_pos hf]
    exact ⟨rfl, rfl, rfl, rfl⟩
  · intro h
    by_cases ht : s.transmitting ≠ 0
    · by_cases hf : TX_BUFFER_FULL cfg s = true
      · unfold write
        rw [if_pos ht, if_pos hf]
        exact ⟨rfl, rfl⟩
      · unfold write at h
        rw [if_pos ht, if_neg hf] at h
        simp at h
    · unfold write at h
      rw [if_neg ht] at h
      simp at h

/-- C11 (witness): with `BUFFER_LENGTH = 32`, after 32 accepted bytes the next
`write(7)` returns 0, sets the write-error flag and keeps `txWriteIndex` at 32
and the buffer content. -/
theorem write_full_is_noop_witness :
    (writeEach cfg32 (beginTransmission (TwoWire.init (Bus.serving [])) 80)
      (List.replicate 32 170)).2.txWriteIndex = 32 ∧
    (write cfg32 (writeEach cfg32 (beginTransmission (TwoWire.init (Bus.serving [])) 80)
      (List.replicate 32 170)).2 7).1 = 0 ∧
    (write cfg32 (writeEach cfg32 (beginTransmission (TwoWire.init (Bus.serving [])) 80)
      (List.replicate 32 170)).2 7).2.writeError = 1 ∧
    (write cfg32 (writeEach cfg32 (beginTransmission (TwoWire.init (Bus.serving [])) 80)
      (List.replicate 32 170)).2 7).2.txBuffer
      = (writeEach cfg32 (beginTransmission (TwoWire.init (Bus.serving [])) 80)
        (List.replicate 32 170)).2.txBuffer ∧
    (write cfg32 (writeEach cfg32 (beginTransmission (TwoWire.init (Bus.serving [])) 80)
      (List.replicate 32 170)).2 7).2.txWriteIndex = 32 :=
  ⟨by decide,
    (write_full_is_noop cfg32 (writeEach cfg32
      (beginTransmission (TwoWire.init (Bus.serving [])) 80) (List.replicate 32 170)).2 7).1
      (by decide) (by decide)⟩

/-- C12 (code at the failing input): with `BUFFER_LENGTH = 32`, an error-free
`requestFrom(80, 31, true)` into the empty buffer stores the 31 bytes
1, 2, ..., 31 in slots 0 to 30, and each of the 31 calls of `read()` that
follow returns -1. -/
theorem read_after_full_request_returns_nothing :
    (∀ i, i < 31 →
      (requestFrom cfg32 (TwoWire.init (Bus.serving ((List.range 31).map (· + 1)))) 80 31
        1).2.rxBuffer i = i + 1) ∧
    (readEach cfg32 31
      (requestFrom cfg32 (TwoWire.init (Bus.serving ((List.range 31).map (· + 1)))) 80 31
        1).2).1 = List.replicate 31 (-1) := by
  decide

/-- C13: TX FIFO order.  After `beginTransmission(address)`, single-byte and bulk
`write` calls hand over the bytes `d0 :: ds`, which fit the buffer.  Then on a
controller that reports no error `endTransmission(sendStop)` programs the
address and puts `d0` into the data register with the first command, then each
byte of `ds` in order with one run command each, then the STOP command if asked
for, and nothing else. -/
theorem endTransmission_sends_in_order (cfg : Config) (s : TwoWire)
    (address sendStop d0 : Nat) (ds : List Nat) (calls : List WriteCall)
    (hcfg : cfg.Valid)
    (hbytes : calls.flatMap WriteCall.bytes = d0 :: ds)
    (hcap : ds.length + 1 ≤ cfg.BUFFER_LENGTH)
    (herr : ∀ r ∈ s.bus.replies, r.err % 256 = 0) :
    (endTransmission cfg (runWrites cfg (beginTransmission s address) calls) sendStop).2.bus.log
      = s.bus.log ++
        (BusOp.slaveAddrSet address false :: BusOp.dataPut d0 ::
          BusOp.mcs (1 ||| (if s.currentState = cfg.MASTER_TX then 0 else 2)) ::
          ds.flatMap (fun d => [BusOp.dataPut d, BusOp.mcs 1])) ++
        (if sendStop ≠ 0 then [BusOp.mcs 4] else []) := by
  obtain ⟨-, hB, -, -, -, hnone, ha, hd, -⟩ := hcfg
  obtain ⟨t1, t2, -, -, t5, t6, t7⟩ := runWrites_fits cfg hB calls (beginTransmission s address)
    (by simp [beginTransmission]) (by rw [hbytes]; simpa [beginTransmission] using hcap)
  rw [hbytes] at t1 t2
  have hidx : (runWrites cfg (beginTransmission s address) calls).txWriteIndex
      = ds.length + 1 := by
    rw [t1]; simp [beginTransmission]
  have hmap : List.map (runWrites cfg (beginTransmission s address) calls).txBuffer
      (List.range' 0 (ds.length + 1)) = d0 :: ds := by
    simpa [beginTransmission] using t2
  rw [List.range'_succ, List.map_cons, List.cons.injEq] at hmap
  obtain ⟨hd0, hds⟩ := hmap
  obtain ⟨-, h2, -⟩ := endTransmission_ok_log cfg
    (runWrites cfg (beginTransmission s address) calls) sendStop hnone ha hd
    (by rw [t7]; exact herr) (by rw [hidx]; omega)
  rw [h2, t7, t6, t5, hd0, hidx, Nat.add_sub_cancel, ← List.flatMap_map
    (runWrites cfg (beginTransmission s address) calls).txBuffer
    (fun d => [BusOp.dataPut d, BusOp.mcs 1]), hds]
  rfl

/-- C13 (witness): `write(1)`, `write({2, 3}, 2)`, `write(4)` after
`beginTransmission(80)` from the idle state, then `endTransmission(true)`:
the controller sees the address, the bytes 1, 2, 3, 4 in this order with one
command each (START and RUN first, RUN after) and the STOP command. -/
theorem endTransmission_sends_in_order_witness :
    cfg32.Valid ∧
    (endTransmission cfg32 (runWrites cfg32 (beginTransmission (TwoWire.init (Bus.serving [])) 80)
      [WriteCall.byte 1, WriteCall.bulk [2, 3], WriteCall.byte 4]) 1).2.bus.log
      = [BusOp.slaveAddrSet 80 false, BusOp.dataPut 1, BusOp.mcs 3, BusOp.dataPut 2,
          BusOp.mcs 1, BusOp.dataPut 3, BusOp.mcs 1, BusOp.dataPut 4, BusOp.mcs 1,
          BusOp.mcs 4] :=
  ⟨by decide,
    endTransmission_sends_in_order cfg32 (TwoWire.init (Bus.serving [])) 80 1 1 [2, 3, 4]
      [WriteCall.byte 1, WriteCall.bulk [2, 3], WriteCall.byte 4] (by decide) rfl (by decide)
      (by decide)⟩

/-- C14: for read and write indices below `BUFFER_LENGTH`, `available()` is
`(rxWriteIndex - rxReadIndex) mod BUFFER_LENGTH`, lies in `0..BUFFER_LENGTH-1`
and is 0 exactly when the buffer is empty. -/
theorem available_is_circular_distance (cfg : Config) (s : TwoWire)
    (hr : s.rxReadIndex < cfg.BUFFER_LENGTH) (hw : s.rxWriteIndex < cfg.BUFFER_LENGTH) :
    available cfg s = ((s.rxWriteIndex : Int) - s.rxReadIndex) % (cfg.BUFFER_LENGTH : Int) ∧
    0 ≤ available cfg s ∧ available cfg s < cfg.BUFFER_LENGTH ∧
    (available cfg s = 0 ↔ RX_BUFFER_EMPTY s = true) := by
  unfold available RX_BUFFER_EMPTY
  split
  · rename_i h
    refine ⟨?_, by omega, by omega, ?_⟩
    · rw [Int.emod_eq_of_lt (by omega) (by omega)]
    · simp only [beq_iff_eq]; omega
  · rename_i h
    refine ⟨?_, by omega, by omega, ?_⟩
    · have h1 : ((s.rxWriteIndex : Int) - s.rxReadIndex) % (cfg.BUFFER_LENGTH : Int)
          = ((s.rxWriteIndex : Int) - s.rxReadIndex + cfg.BUFFER_LENGTH)
            % (cfg.BUFFER_LENGTH : Int) := by
        rw [Int.add_emod_self]
      rw [h1, Int.emod_eq_of_lt (by omega) (by omega)]
      omega
    · simp only [beq_iff_eq]; omega

/-- C14 (witness): with `BUFFER_LENGTH = 32`, read index 30 and write index 2,
`available()` is 4, which is `(2 - 30) mod 32`. -/
theorem available_is_circular_distance_witness :
    available cfg32 { TwoWire.init (Bus.serving []) with rxReadIndex := 30, rxWriteIndex := 2 }
      = 4 ∧
    available cfg32 { TwoWire.init (Bus.serving []) with rxReadIndex := 30, rxWriteIndex := 2 }
      = ((2 : Int) - 30) % 32 := by
  have h := available_is_circular_distance cfg32
    { TwoWire.init (Bus.serving []) with rxReadIndex := 30, rxWriteIndex := 2 }
    (by decide) (by decide)
  exact ⟨by decide, h.1⟩

/-- C15: `peek()` returns -1 exactly when `rxReadIndex == rxWriteIndex` and
`rxBuffer[rxReadIndex]` otherwise; the call leaves the whole state as it was, so
a second `peek()` returns the same value. -/
theorem peek_does_not_consume (s : TwoWire) :
    ((peek.call s).1 = -1 ↔ s.rxReadIndex = s.rxWriteIndex) ∧
    (s.rxReadIndex ≠ s.rxWriteIndex → (peek.call s).1 = (s.rxBuffer s.rxReadIndex : Int)) ∧
    (peek.call s).2 = s ∧
    (peek.call (peek.call s).2).1 = (peek.call s).1 := by
  refine ⟨?_, ?_, rfl, rfl⟩
  · unfold peek.call peek RX_BUFFER_EMPTY
    by_cases h : s.rxReadIndex = s.rxWriteIndex
    · simp [h]
    · have hne : ((s.rxBuffer s.rxReadIndex : Nat) : Int) ≠ -1 := by omega
      simp [h, hne]
  · intro h
    simp [peek.call, peek, RX_BUFFER_EMPTY, h]

/-- C15 (witness): after one byte 7 was received into the empty buffer, `peek()`
returns 7, leaves the read index at 0, and returns 7 again. -/
theorem peek_does_not_consume_witness :
    (requestFrom cfg32 (TwoWire.init (Bus.serving [7])) 80 1 1).2.rxReadIndex
      ≠ (requestFrom cfg32 (TwoWire.init (Bus.serving [7])) 80 1 1).2.rxWriteIndex ∧
    (peek.call (requestFrom cfg32 (TwoWire.init (Bus.serving [7])) 80 1 1).2).1 = 7 ∧
    (peek.call (requestFrom cfg32 (TwoWire.init (Bus.serving [7])) 80 1 1).2).2.rxReadIndex
      = 0 ∧
    (peek.call (peek.call
      (requestFrom cfg32 (TwoWire.init (Bus.serving [7])) 80 1 1).2).2).1 = 7 := by
  have h := peek_does_not_consume (requestFrom cfg32 (TwoWire.init (Bus.serving [7])) 80 1 1).2
  have h7 : (peek.call (requestFrom cfg32 (TwoWire.init (Bus.serving [7])) 80 1 1).2).1 = 7 :=
    (h.2.1 (by decide)).trans (by decide)
  refine ⟨by decide, h7, ?_, ?_⟩
  · rw [h.2.2.1]
    decide
  · rw [h.2.2.2]
    exact h7

/-- C16: after `flush()`, `available()` is 0, and flushing twice leaves the same
state as flushing once. -/
theorem flush_idempotent (cfg : Config) (s : TwoWire) :
    available cfg (flush s) = 0 ∧ flush (flush s) = flush s := by
  constructor
  · simp [available, flush]
  · rfl

/-- C17: transaction continuation.  For every `endTransmission` call with a
non-empty TX buffer, under any behaviour of the controller, the first command
written contains the START bit (2) exactly when the state on entry is not
MASTER_TX.  In particular, after an `endTransmission(false)` that returned 0,
whatever `write` calls build the next packet, the next `endTransmission` writes
no command that contains START. -/
theorem endTransmission_start_bit (cfg : Config) (s : TwoWire) (sendStop : Nat)
    (h : s.txWriteIndex ≠ 0) :
    (∃ c rest, mcsCommands (issued s (endTransmission cfg s sendStop).2) = c :: rest ∧
      (c &&& 2 ≠ 0 ↔ s.currentState ≠ cfg.MASTER_TX)) ∧
    ((endTransmission cfg s 0).1 = 0 →
      ∀ (address stop c : Nat) (calls : List WriteCall),
        c ∈ mcsCommands (issued
          (runWrites cfg (beginTransmission (endTransmission cfg s 0).2 address) calls)
          (endTransmission cfg
            (runWrites cfg (beginTransmission (endTransmission cfg s 0).2 address) calls)
            stop).2) →
        c &&& 2 = 0) := by
  have hm : ∀ l1 l2 : List BusOp, mcsCommands (l1 ++ l2) = mcsCommands l1 ++ mcsCommands l2 :=
    fun l1 l2 => List.filterMap_append l1 l2 _
  constructor
  · obtain ⟨more, m1, -, -⟩ := endTransmission_log_any cfg s sendStop h
    refine ⟨1 ||| (if s.currentState = cfg.MASTER_TX then 0 else 2), mcsCommands more, ?_, ?_⟩
    · rw [issued_of_log m1]
      simp [mcsCommands]
    · by_cases hs : s.currentState = cfg.MASTER_TX
      · simp [hs]
      · simp only [hs, if_false, ne_eq, not_false_eq_true, iff_true]
        decide
  · intro h0 address stop c calls hc
    obtain ⟨more0, -, -, m3⟩ := endTransmission_log_any cfg s 0 h
    have hst : (runWrites cfg (beginTransmission (endTransmission cfg s 0).2 address)
        calls).currentState = cfg.MASTER_TX := by
      rw [runWrites_currentState]
      exact m3 h0 rfl
    by_cases hidx : (runWrites cfg (beginTransmission (endTransmission cfg s 0).2 address)
        calls).txWriteIndex = 0
    · have he : endTransmission cfg
          (runWrites cfg (beginTransmission (endTransmission cfg s 0).2 address) calls) stop
          = (0, runWrites cfg (beginTransmission (endTransmission cfg s 0).2 address) calls) := by
        exact endTransmission_empty cfg _ stop hidx
      rw [he] at hc
      simp [issued, mcsCommands] at hc
    · obtain ⟨more, k1, k2, -⟩ := endTransmission_log_any cfg _ stop hidx
      rw [issued_of_log k1, hst] at hc
      have hc2 : c = 1 ∨ c ∈ mcsCommands more := by
        simpa [mcsCommands] using hc
      rcases hc2 with rfl | hc2
      · decide
      · rcases k2 c hc2 with rfl | rfl <;> decide

/-- C17 (witness): two bytes are sent with `endTransmission(false)` from the
idle state (first command 3, START and RUN), then two more are queued and sent
with `endTransmission(true)`: the commands of the second call are 1, 1, 4. -/
theorem endTransmission_start_bit_witness :
    mcsCommands (issued
      (writeBuffer cfg32 (beginTransmission (TwoWire.init (Bus.serving [])) 80) [1, 2]).2
      (endTransmission cfg32
        (writeBuffer cfg32 (beginTransmission (TwoWire.init (Bus.serving [])) 80)
          [1, 2]).2 0).2) = [3, 1] ∧
    (∀ c, c ∈ mcsCommands (issued
        (runWrites cfg32 (beginTransmission (endTransmission cfg32
          (writeBuffer cfg32 (beginTransmission (TwoWire.init (Bus.serving [])) 80)
            [1, 2]).2 0).2 80) [WriteCall.bulk [3, 4]])
        (endTransmission cfg32
          (runWrites cfg32 (beginTransmission (endTransmission cfg32
            (writeBuffer cfg32 (beginTransmission (TwoWire.init (Bus.serving [])) 80)
              [1, 2]).2 0).2 80) [WriteCall.bulk [3, 4]]) 1).2) →
      c &&& 2 = 0) :=
  ⟨by decide,
    fun c => (endTransmission_start_bit cfg32
      (writeBuffer cfg32 (beginTransmission (TwoWire.init (Bus.serving [])) 80) [1, 2]).2 0
      (by decide)).2 (by decide) 80 1 c [WriteCall.bulk [3, 4]]⟩

/-- C18: final state of a successful `endTransmission`.  With a non-empty TX
buffer and a controller that reports no error, `endTransmission(sendStop)`
returns 0; if `sendStop` is non-zero the last command it writes is STOP (4) and
the state becomes IDLE, otherwise it writes no STOP command and the state
becomes MASTER_TX. -/
theorem endTransmission_success_final_state (cfg : Config) (s : TwoWire) (sendStop : Nat)
    (hcfg : cfg.Valid) (herr : ∀ r ∈ s.bus.replies, r.err % 256 = 0)
    (h : s.txWriteIndex ≠ 0) :
    (endTransmission cfg s sendStop).1 = 0 ∧
    (sendStop ≠ 0 →
      (mcsCommands (issued s (endTransmission cfg s sendStop).2)).getLast? = some 4 ∧
      (endTransmission cfg s sendStop).2.currentState = cfg.IDLE) ∧
    (sendStop = 0 →
      4 ∉ mcsCommands (issued s (endTransmission cfg s sendStop).2) ∧
      (endTransmission cfg s sendStop).2.currentState = cfg.MASTER_TX) := by
  obtain ⟨-, -, -, -, -, hnone, ha, hd, -⟩ := hcfg
  obtain ⟨h1, -, h3⟩ := endTransmission_ok_log cfg s sendStop hnone ha hd herr h
  have hc := endTransmission_ok_commands cfg s sendStop hnone ha hd herr h
  refine ⟨h1, ?_, ?_⟩
  · intro hs
    rw [hc, h3, if_pos hs, if_pos hs]
    exact ⟨List.getLast?_concat _, rfl⟩
  · intro hs
    have hs' : ¬ sendStop ≠ 0 := by simp [hs]
    rw [hc, h3, if_neg hs', if_neg hs']
    refine ⟨?_, rfl⟩
    simp only [List.append_nil, List.mem_cons, List.mem_replicate, not_or]
    constructor
    · split <;> decide
    · intro hx
      exact absurd hx.2 (by decide)

/-- C18 (witness): three bytes queued from the idle state on an error-free
controller: `endTransmission(true)` returns 0, writes STOP last and ends IDLE;
`endTransmission(false)` returns 0, writes no STOP and ends MASTER_TX. -/
theorem endTransmission_success_final_state_witness :
    ((endTransmission cfg32
        (writeBuffer cfg32 (beginTransmission (TwoWire.init (Bus.serving [])) 80)
          [1, 2, 3]).2 1).1 = 0 ∧
      (mcsCommands (issued
        (writeBuffer cfg32 (beginTransmission (TwoWire.init (Bus.serving [])) 80) [1, 2, 3]).2
        (endTransmission cfg32
          (writeBuffer cfg32 (beginTransmission (TwoWire.init (Bus.serving [])) 80)
            [1, 2, 3]).2 1).2)).getLast? = some 4 ∧
      (endTransmission cfg32
        (writeBuffer cfg32 (beginTransmission (TwoWire.init (Bus.serving [])) 80)
          [1, 2, 3]).2 1).2.currentState = cfg32.IDLE) ∧
    ((endTransmission cfg32
        (writeBuffer cfg32 (beginTransmission (TwoWire.init (Bus.serving [])) 80)
          [1, 2, 3]).2 0).1 = 0 ∧
      4 ∉ mcsCommands (issued
        (writeBuffer cfg32 (beginTransmission (TwoWire.init (Bus.serving [])) 80) [1, 2, 3]).2
        (endTransmission cfg32
          (writeBuffer cfg32 (beginTransmission (TwoWire.init (Bus.serving [])) 80)
            [1, 2, 3]).2 0).2) ∧
      (endTransmission cfg32
        (writeBuffer cfg32 (beginTransmission (TwoWire.init (Bus.serving [])) 80)
          [1, 2, 3]).2 0).2.currentState = cfg32.MASTER_TX) := by
  have h1 := endTransmission_success_final_state cfg32
    (writeBuffer cfg32 (beginTransmission (TwoWire.init (Bus.serving [])) 80) [1, 2, 3]).2 1
    (by decide) (by decide) (by decide)
  have h0 := endTransmission_success_final_state cfg32
    (writeBuffer cfg32 (beginTransmission (TwoWire.init (Bus.serving [])) 80) [1, 2, 3]).2 0
    (by decide) (by decide) (by decide)
  exact ⟨⟨h1.1, h1.2.1 (by decide)⟩, ⟨h0.1, h0.2.2 rfl⟩⟩

/-- C19 (code at the failing input): from the initial state `selectModule(1)`
enables and configures the pins and the master of module 1 and returns with
`i2cModule == 0`; with the slave address 66 set, `selectModule(2)` enables and
configures module 2, returns with `i2cModule == 0` and has set up the slave of
module 0. -/
theorem selectModule_ends_on_module_zero :
    (selectModule cfg32 (TwoWire.init (Bus.serving [])) 1).i2cModule = 0 ∧
    (selectModule cfg32 (TwoWire.init (Bus.serving [])) 1).bus.log
      = [BusOp.peripheralEnable 1, BusOp.pinConfigure 1 Pin.scl, BusOp.pinConfigure 1 Pin.sda,
          BusOp.pinTypeI2C 1, BusOp.pinTypeI2CSCL 1, BusOp.masterInitExpClk 1] ∧
    (selectModule cfg32 { TwoWire.init (Bus.serving []) with slaveAddress := 66 } 2).i2cModule
      = 0 ∧
    (selectModule cfg32 { TwoWire.init (Bus.serving []) with slaveAddress := 66 } 2).bus.log
      = [BusOp.peripheralEnable 2, BusOp.pinConfigure 2 Pin.scl, BusOp.pinConfigure 2 Pin.sda,
          BusOp.pinTypeI2C 2, BusOp.pinTypeI2CSCL 2, BusOp.masterInitExpClk 2,
          BusOp.intEnable 0, BusOp.slaveIntEnableEx 0, BusOp.masterDisable 0,
          BusOp.slaveEnable 0, BusOp.slaveInit 0 66, BusOp.intMasterEnable] := by
  decide

/-- C20: bus-recovery bounded retry.  On a bus that answers "busy" to every
query of `begin()` (more than 100 busy polls left), `begin()` returns after
exactly 100 passes of the recovery loop on the pins of module 0, each pass ten
writes to the SCL pin, low and high in turn, and then restores the I2C function
of the pins; it has queried the bus 101 times. -/
theorem begin_bounded_recovery (cfg : Config) (s : TwoWire) (hbusy : 100 < s.bus.busBusy) :
    (begin cfg s).bus.log
      = (begin.setup cfg s).bus.log ++
        [BusOp.pctlClear 0, BusOp.pinTypeGPIOOutput 0 true false] ++
        (List.replicate 100 (begin.pass 0)).flatten ++
        [BusOp.pinConfigure 0 Pin.scl, BusOp.pinConfigure 0 Pin.sda, BusOp.pinTypeI2C 0,
          BusOp.pinTypeI2CSCL 0] ∧
    (begin cfg s).bus.busBusy + 101 = s.bus.busBusy := by
  obtain ⟨hm, hb⟩ := begin_setup_fields cfg s
  obtain ⟨k, hk⟩ : ∃ k, (begin.setup cfg s).bus.busBusy = k + 1 :=
    ⟨s.bus.busBusy - 1, by omega⟩
  have hpoll : (begin.setup cfg s).bus.I2CMasterBusBusy
      = (true, { (begin.setup cfg s).bus with busBusy := k }) := by
    simp [Bus.I2CMasterBusBusy, hk]
  unfold begin
  simp only [hpoll, Bool.true_or, if_true, Bus.record, hm]
  generalize hX : begin.recover 100 0 _ = R
  have hR1 : R.bus.log = (begin.setup cfg s).bus.log ++
      [BusOp.pctlClear 0, BusOp.pinTypeGPIOOutput 0 true false] ++
      (List.replicate 100 (begin.pass 0)).flatten := by
    rw [← hX]
    refine (begin_recover_stuck 100 0 _ (by omega) (by omega) ?_).1.trans ?_
    · simp only; omega
    · simp
  have hR2 : R.bus.busBusy = k - 100 := by
    rw [← hX]
    refine (begin_recover_stuck 100 0 _ (by omega) (by omega) ?_).2.1.trans ?_
    · simp only; omega
    · rfl
  have hR3 : R.i2cModule = 0 := by
    rw [← hX]
    refine (begin_recover_stuck 100 0 _ (by omega) (by omega) ?_).2.2.trans ?_
    · simp only; omega
    · rfl
  simp only [hR1, hR2, hR3]
  constructor
  · simp
  · omega

/-- C20 (witness): a controller with 101 busy polls left answers "busy" to each
of the 101 queries of `begin()`: the log ends with the 100 passes and the
restored pin function, and no busy poll is left. -/
theorem begin_bounded_recovery_witness :
    100 < (TwoWire.init { Bus.serving [] with busBusy := 101 }).bus.busBusy ∧
    (begin cfg32 (TwoWire.init { Bus.serving [] with busBusy := 101 })).bus.log
      = (begin.setup cfg32 (TwoWire.init { Bus.serving [] with busBusy := 101 })).bus.log ++
        [BusOp.pctlClear 0, BusOp.pinTypeGPIOOutput 0 true false] ++
        (List.replicate 100 (begin.pass 0)).flatten ++
        [BusOp.pinConfigure 0 Pin.scl, BusOp.pinConfigure 0 Pin.sda, BusOp.pinTypeI2C 0,
          BusOp.pinTypeI2CSCL 0] ∧
    (begin cfg32 (TwoWire.init { Bus.serving [] with busBusy := 101 })).bus.busBusy + 101
      = (TwoWire.init { Bus.serving [] with busBusy := 101 }).bus.busBusy :=
  ⟨by decide,
    begin_bounded_recovery cfg32 (TwoWire.init { Bus.serving [] with busBusy := 101 })
      (by decide)⟩

/-- C21: `begin()` resets the engine.  For every prior state, after `begin()`
both RX indices and both TX indices are 0 and the transaction state is IDLE,
so `available()` is 0 and `peek()` is -1. -/
theorem begin_resets_engine (cfg : Config) (s : TwoWire) :
    (begin cfg s).rxReadIndex = 0 ∧ (begin cfg s).rxWriteIndex = 0 ∧
    (begin cfg s).txReadIndex = 0 ∧ (begin cfg s).txWriteIndex = 0 ∧
    (begin cfg s).currentState = cfg.IDLE ∧
    available cfg (begin cfg s) = 0 ∧ peek (begin cfg s) = -1 := by
  obtain ⟨h1, h2, h3, h4, h5, -, -⟩ := begin_fields cfg s
  refine ⟨h1, h2, h3, h4, h5, ?_, ?_⟩
  · simp [available, h1, h2]
  · simp [peek, RX_BUFFER_EMPTY, h1, h2]

/-- C22: slave dispatch.  With the slave status "data received" the interrupt
handler clears the interrupt and calls `user_onReceive` once, with `available()`
as argument, and does not call `user_onRequest`; with "data requested" it calls
`user_onRequest` once and not `user_onReceive`; with any other status it calls
neither.  `onReceive` and `onRequest` store the pointers that are called. -/
theorem I2CIntHandler_dispatch (cfg : Config) (s : TwoWire)
    (hcase : cfg.I2C_SLAVE_ACT_RREQ ≠ cfg.I2C_SLAVE_ACT_TREQ) :
    (s.bus.slaveStatus = cfg.I2C_SLAVE_ACT_RREQ →
      issued s (I2CIntHandler cfg s)
        = [BusOp.slaveIntClear s.i2cModule,
            BusOp.callOnReceive s.user_onReceive (available cfg s)]) ∧
    (s.bus.slaveStatus = cfg.I2C_SLAVE_ACT_TREQ →
      issued s (I2CIntHandler cfg s)
        = [BusOp.slaveIntClear s.i2cModule, BusOp.callOnRequest s.user_onRequest]) ∧
    (s.bus.slaveStatus ≠ cfg.I2C_SLAVE_ACT_RREQ → s.bus.slaveStatus ≠ cfg.I2C_SLAVE_ACT_TREQ →
      issued s (I2CIntHandler cfg s) = [BusOp.slaveIntClear s.i2cModule]) ∧
    (∀ f, (onReceive s f).user_onReceive = f) ∧ (∀ g, (onRequest s g).user_onRequest = g) := by
  refine ⟨?_, ?_, ?_, fun _ => rfl, fun _ => rfl⟩
  · intro h
    apply issued_of_log
    simp [I2CIntHandler, Bus.record, h, available]
  · intro h
    have h2 : s.bus.slaveStatus ≠ cfg.I2C_SLAVE_ACT_RREQ := by
      rw [h]; exact fun e => hcase e.symm
    have h3 : ¬ cfg.I2C_SLAVE_ACT_TREQ = cfg.I2C_SLAVE_ACT_RREQ := fun e => hcase e.symm
    apply issued_of_log
    simp [I2CIntHandler, Bus.record, h, h3]
  · intro h1 h2
    apply issued_of_log
    simp [I2CIntHandler, Bus.record, h1, h2]

/-- C22 (witness): two bytes are unread, the callbacks 11 and 22 are
registered and the status is "data received" (1): the handler clears the
interrupt and calls the function 11 with the argument 2. -/
theorem I2CIntHandler_dispatch_witness :
    issued
      { onRequest (onReceive (requestFrom cfg32 (TwoWire.init (Bus.serving [7, 9])) 80 2 1).2
          11) 22 with
        bus := { (requestFrom cfg32 (TwoWire.init (Bus.serving [7, 9])) 80 2 1).2.bus with
          slaveStatus := 1 } }
      (I2CIntHandler cfg32
        { onRequest (onReceive (requestFrom cfg32 (TwoWire.init (Bus.serving [7, 9])) 80 2 1).2
            11) 22 with
          bus := { (requestFrom cfg32 (TwoWire.init (Bus.serving [7, 9])) 80 2 1).2.bus with
            slaveStatus := 1 } })
      = [BusOp.slaveIntClear 0, BusOp.callOnReceive 11 2] :=
  ((I2CIntHandler_dispatch cfg32
    { onRequest (onReceive (requestFrom cfg32 (TwoWire.init (Bus.serving [7, 9])) 80 2 1).2
        11) 22 with
      bus := { (requestFrom cfg32 (TwoWire.init (Bus.serving [7, 9])) 80 2 1).2.bus with
        slaveStatus := 1 } } (by decide)).1 (by decide)).trans (by decide)

/-- C23: with nothing buffered (`txWriteIndex == 0`) `endTransmission(sendStop)`
returns 0 and makes no access to the controller: no address is programmed,
no data and no command is written. -/
theorem endTransmission_nothing_buffered (cfg : Config) (s : TwoWire) (sendStop : Nat)
    (h : s.txWriteIndex = 0) :
    (endTransmission cfg s sendStop).1 = 0 ∧
    issued s (endTransmission cfg s sendStop).2 = [] ∧
    (endTransmission cfg s sendStop).2.bus = s.bus := by
  rw [endTransmission_empty cfg s sendStop h]
  exact ⟨rfl, by simp [issued], rfl⟩

/-- C23 (witness): right after `beginTransmission(80)`, `endTransmission(true)`
returns 0 and the log of the controller is still empty. -/
theorem endTransmission_nothing_buffered_witness :
    (endTransmission cfg32 (beginTransmission (TwoWire.init (Bus.serving [])) 80) 1).1 = 0 ∧
    issued (beginTransmission (TwoWire.init (Bus.serving [])) 80)
      (endTransmission cfg32 (beginTransmission (TwoWire.init (Bus.serving [])) 80) 1).2 = [] ∧
    (endTransmission cfg32 (beginTransmission (TwoWire.init (Bus.serving [])) 80) 1).2.bus
      = (beginTransmission (TwoWire.init (Bus.serving [])) 80).bus :=
  endTransmission_nothing_buffered cfg32 (beginTransmission (TwoWire.init (Bus.serving [])) 80)
    1 rfl

/-- C24 (code at the failing input): all registers are 0 and the flags are
`0x00010001` (one DMA interrupt, bit 16, and one module interrupt, bit 0).
`DESIntEnable` sets bit 0 of `DES_O_IRQENABLE` and bit 0 of the DTHE mask
`DTHE_O_DES_IM`; the following `DESIntDisable` clears the bit of
`DES_O_IRQENABLE` but leaves `DTHE_O_DES_IM` at 1.  On a memory whose
`DTHE_O_AES_IM` is 7, `DESIntDisable` with the flags `0x00070000` sets that
register, which belongs to the AES module, to 0. -/
theorem DESIntDisable_misses_DES_mask :
    DESIntEnable desCfg (fun _ => 0) desCfg.DES_BASE 0x00010001
      (desCfg.DES_BASE + desCfg.DES_O_IRQENABLE) = 1 ∧
    DESIntEnable desCfg (fun _ => 0) desCfg.DES_BASE 0x00010001
      (desCfg.DTHE_BASE + desCfg.DTHE_O_DES_IM) = 1 ∧
    DESIntDisable desCfg (DESIntEnable desCfg (fun _ => 0) desCfg.DES_BASE 0x00010001)
      desCfg.DES_BASE 0x00010001 (desCfg.DES_BASE + desCfg.DES_O_IRQENABLE) = 0 ∧
    DESIntDisable desCfg (DESIntEnable desCfg (fun _ => 0) desCfg.DES_BASE 0x00010001)
      desCfg.DES_BASE 0x00010001 (desCfg.DTHE_BASE + desCfg.DTHE_O_DES_IM) = 1 ∧
    DESIntDisable desCfg (store (fun _ => 0) (desCfg.DTHE_BASE + desCfg.DTHE_O_AES_IM) 7)
      desCfg.DES_BASE 0x00070000 (desCfg.DTHE_BASE + desCfg.DTHE_O_AES_IM) = 0 := by
  decide

/-- C25 (fails for a single byte): a `requestFrom` of one byte on an error-free
controller issues the commands 11 and 4, so the command of its last and only
byte, 11, has the ACK bit 0x8 set; a request of three bytes issues 11, 9, 1
and 4, where the last byte's command, 1, has the ACK bit clear. -/
theorem requestFrom_single_byte_is_acked :
    mcsCommands (issued (TwoWire.init (Bus.serving [7]))
      (requestFrom cfg32 (TwoWire.init (Bus.serving [7])) 80 1 1).2) = [11, 4] ∧
    11 &&& 8 = 8 ∧
    mcsCommands (issued (TwoWire.init (Bus.serving [7, 8, 9]))
      (requestFrom cfg32 (TwoWire.init (Bus.serving [7, 8, 9])) 80 3 1).2) = [11, 9, 1, 4] ∧
    1 &&& 8 = 0 := by
  decide

/-- C26: on a controller that reports no error, a `requestFrom` whose clipped
quantity is at least 1 issues a first command that contains START (0x2) exactly
when the state on entry is not MASTER_RX, and no later command contains START;
with `sendStop` non-zero the last command written is STOP (0x4) and the state
on return is IDLE, with `sendStop` zero no STOP is written and the state on
return is MASTER_RX. -/
theorem requestFrom_start_bit_and_final_state (cfg : Config) (s : TwoWire)
    (address quantity sendStop : Nat) (hcfg : cfg.Valid)
    (herr : ∀ r ∈ s.bus.replies, r.err % 256 = 0)
    (hq : 1 ≤ min quantity (spaceAvailable cfg s)) :
    (∃ first later,
      mcsCommands (issued s (requestFrom cfg s address quantity sendStop).2) = first :: later ∧
      (first &&& 2 ≠ 0 ↔ s.currentState ≠ cfg.MASTER_RX) ∧
      ∀ c ∈ later, c &&& 2 = 0) ∧
    (sendStop ≠ 0 →
      (mcsCommands (issued s (requestFrom cfg s address quantity sendStop).2)).getLast? = some 4 ∧
      (requestFrom cfg s address quantity sendStop).2.currentState = cfg.IDLE) ∧
    (sendStop = 0 →
      4 ∉ mcsCommands (issued s (requestFrom cfg s address quantity sendStop).2) ∧
      (requestFrom cfg s address quantity sendStop).2.currentState = cfg.MASTER_RX) := by
  obtain ⟨_, _, _, _, _, hnone, _, _, _⟩ := hcfg
  rw [requestFrom_clip]
  have hfit : min quantity (spaceAvailable cfg s) ≤ spaceAvailable cfg s :=
    Nat.min_le_right _ _
  generalize min quantity (spaceAvailable cfg s) = q at hq hfit ⊢
  have hc := requestFrom_ok_commands cfg s address q sendStop hnone herr hq hfit
  have hst := (requestFrom_ok_log cfg s address q sendStop hnone herr hq hfit).2
  have hread : ∀ c ∈ (List.range' 1 (q - 1)).map (fun j => 1 ||| (if j = q - 1 then 0 else 8)),
      c = 1 ∨ c = 9 := by
    intro c hc
    obtain ⟨j, -, rfl⟩ := List.mem_map.1 hc
    by_cases hj : j = q - 1
    · left; simp [hj]
    · right; simp [hj]
  have hfirst : (1 ||| (if s.currentState = cfg.MASTER_RX then 0 else 2) ||| 8) = 9 ∨
      (1 ||| (if s.currentState = cfg.MASTER_RX then 0 else 2) ||| 8) = 11 := by
    by_cases h : s.currentState = cfg.MASTER_RX
    · left; simp [h]
    · right; simp [h]
  refine ⟨⟨_, _, hc, ?_, ?_⟩, ?_, ?_⟩
  · by_cases h : s.currentState = cfg.MASTER_RX
    · simp [h]
      decide
    · simp [h]
  · intro c hmem
    rcases List.mem_append.1 hmem with h | h
    · rcases hread c h with rfl | rfl <;> decide
    · by_cases hs : sendStop = 0
      · simp [hs] at h
      · simp [hs] at h
        subst h
        decide
  · intro hs
    rw [hc, hst, if_pos hs, if_pos hs, List.getLast?_concat]
    exact ⟨rfl, rfl⟩
  · intro hs
    rw [hc, hst]
    refine ⟨?_, by simp [hs]⟩
    simp only [hs, ne_eq, not_true_eq_false, if_false, List.append_nil, List.mem_cons, not_or]
    constructor
    · rcases hfirst with h | h <;> rw [h] <;> decide
    · intro h4
      rcases hread 4 h4 with h | h <;> exact absurd h (by decide)

/-- C26 at a request of two bytes with STOP on the reset engine. -/
theorem requestFrom_start_bit_and_final_state_witness :
    cfg32.Valid ∧ 1 ≤ min 2 (spaceAvailable cfg32 (TwoWire.init (Bus.serving [7, 8]))) ∧
    ((∃ first later,
      mcsCommands (issued (TwoWire.init (Bus.serving [7, 8]))
        (requestFrom cfg32 (TwoWire.init (Bus.serving [7, 8])) 80 2 1).2) = first :: later ∧
      (first &&& 2 ≠ 0 ↔ (TwoWire.init (Bus.serving [7, 8])).currentState ≠ cfg32.MASTER_RX) ∧
      ∀ c ∈ later, c &&& 2 = 0) ∧
    (1 ≠ 0 →
      (mcsCommands (issued (TwoWire.init (Bus.serving [7, 8]))
        (requestFrom cfg32 (TwoWire.init (Bus.serving [7, 8])) 80 2 1).2)).getLast? = some 4 ∧
      (requestFrom cfg32 (TwoWire.init (Bus.serving [7, 8])) 80 2 1).2.currentState
        = cfg32.IDLE) ∧
    (1 = 0 →
      4 ∉ mcsCommands (issued (TwoWire.init (Bus.serving [7, 8]))
        (requestFrom cfg32 (TwoWire.init (Bus.serving [7, 8])) 80 2 1).2) ∧
      (requestFrom cfg32 (TwoWire.init (Bus.serving [7, 8])) 80 2 1).2.currentState
        = cfg32.MASTER_RX)) :=
  ⟨by decide, by decide,
    requestFrom_start_bit_and_final_state cfg32 (TwoWire.init (Bus.serving [7, 8])) 80 2 1
      (by decide) (by decide) (by decide)⟩

/-- C27: `beginTransmission(address)` records the address, sets `txWriteIndex`
to 0 and `transmitting` to 1; it leaves the RX buffer, the RX indices and the
transaction state unchanged and makes no access to the controller. -/
theorem beginTransmission_prepares_only (s : TwoWire) (address : Nat) :
    (beginTransmission s address).txAddress = address ∧
    (beginTransmission s address).txWriteIndex = 0 ∧
    (beginTransmission s address).transmitting = 1 ∧
    (beginTransmission s address).rxBuffer = s.rxBuffer ∧
    (beginTransmission s address).rxReadIndex = s.rxReadIndex ∧
    (beginTransmission s address).rxWriteIndex = s.rxWriteIndex ∧
    (beginTransmission s address).currentState = s.currentState ∧
    (beginTransmission s address).bus = s.bus ∧
    issued s (beginTransmission s address) = [] :=
  ⟨rfl, rfl, rfl, rfl, rfl, rfl, rfl, rfl, by simp [issued, beginTransmission]⟩

/-- C28: with a buffer of at least one slot, the ranges
`rxReadIndex < BUFFER_LENGTH`, `rxWriteIndex < BUFFER_LENGTH` and
`txWriteIndex ≤ BUFFER_LENGTH` hold after `begin` from any state, and from any
state where they hold they hold again after `write` (one byte and bulk),
`beginTransmission`, `endTransmission`, `requestFrom`, `read`, `peek` and
`flush`, whatever the controller answers and whatever the buffers hold; none of
these calls changes a slot of `rxBuffer` or `txBuffer` at an index of
`BUFFER_LENGTH` or more, so every store they make is below `BUFFER_LENGTH`.
`available` computes a number and assigns nothing. -/
theorem index_range_invariant (cfg : Config) (s0 s : TwoWire) (d : Nat) (ds : List Nat)
    (address quantity sendStop : Nat)
    (hB : 0 < cfg.BUFFER_LENGTH) (h : IndexInv cfg s) :
    (IndexInv cfg (begin cfg s0) ∧ OutOfRangeKept cfg s0 (begin cfg s0)) ∧
    (IndexInv cfg (write cfg s d).2 ∧ OutOfRangeKept cfg s (write cfg s d).2) ∧
    (IndexInv cfg (writeBuffer cfg s ds).2 ∧ OutOfRangeKept cfg s (writeBuffer cfg s ds).2) ∧
    (IndexInv cfg (beginTransmission s address) ∧
      OutOfRangeKept cfg s (beginTransmission s address)) ∧
    (IndexInv cfg (endTransmission cfg s sendStop).2 ∧
      OutOfRangeKept cfg s (endTransmission cfg s sendStop).2) ∧
    (IndexInv cfg (requestFrom cfg s address quantity sendStop).2 ∧
      OutOfRangeKept cfg s (requestFrom cfg s address quantity sendStop).2) ∧
    (IndexInv cfg (read cfg s).2 ∧ OutOfRangeKept cfg s (read cfg s).2) ∧
    (IndexInv cfg (peek.call s).2 ∧ OutOfRangeKept cfg s (peek.call s).2) ∧
    (IndexInv cfg (flush s) ∧ OutOfRangeKept cfg s (flush s)) := by
  obtain ⟨b1, b2, -, b4, -, b6, b7⟩ := begin_fields cfg s0
  refine ⟨⟨⟨by rw [b1]; exact hB, by rw [b2]; exact hB, by rw [b4]; exact Nat.zero_le _⟩,
      fun x _ => ⟨by rw [b6], by rw [b7]⟩⟩,
    write_keeps cfg s d h, writeBuffer_loop_keeps cfg ds s h,
    ⟨⟨h.1, h.2.1, Nat.zero_le _⟩, fun _ _ => ⟨rfl, rfl⟩⟩,
    endTransmission_keeps cfg s sendStop h,
    requestFrom_keeps cfg s address quantity sendStop hB h,
    read_keeps cfg s hB h,
    ⟨h, outOfRangeKept_same cfg s⟩,
    ⟨⟨h.2.1, h.2.1, Nat.zero_le _⟩, fun _ _ => ⟨rfl, rfl⟩⟩⟩

/-- C28 at a packet just begun on the reset engine, 32 slots. -/
theorem index_range_invariant_witness :
    0 < cfg32.BUFFER_LENGTH ∧
    IndexInv cfg32 (beginTransmission (TwoWire.init (Bus.serving [7])) 80) ∧
    (IndexInv cfg32
        (begin cfg32 (TwoWire.init (Bus.serving []))) ∧
      OutOfRangeKept cfg32 (TwoWire.init (Bus.serving []))
        (begin cfg32 (TwoWire.init (Bus.serving [])))) ∧
    (IndexInv cfg32
        (write cfg32 (beginTransmission (TwoWire.init (Bus.serving [7])) 80) 5).2 ∧
      OutOfRangeKept cfg32 (beginTransmission (TwoWire.init (Bus.serving [7])) 80)
        (write cfg32 (beginTransmission (TwoWire.init (Bus.serving [7])) 80) 5).2) ∧
    (IndexInv cfg32
        (writeBuffer cfg32 (beginTransmission (TwoWire.init (Bus.serving [7])) 80) [1, 2]).2 ∧
      OutOfRangeKept cfg32 (beginTransmission (TwoWire.init (Bus.serving [7])) 80)
        (writeBuffer cfg32 (beginTransmission (TwoWire.init (Bus.serving [7])) 80) [1, 2]).2) ∧
    (IndexInv cfg32
        (beginTransmission (beginTransmission (TwoWire.init (Bus.serving [7])) 80) 80) ∧
      OutOfRangeKept cfg32 (beginTransmission (TwoWire.init (Bus.serving [7])) 80)
        (beginTransmission (beginTransmission (TwoWire.init (Bus.serving [7])) 80) 80)) ∧
    (IndexInv cfg32
        (endTransmission cfg32 (beginTransmission (TwoWire.init (Bus.serving [7])) 80) 1).2 ∧
      OutOfRangeKept cfg32 (beginTransmission (TwoWire.init (Bus.serving [7])) 80)
        (endTransmission cfg32 (beginTransmission (TwoWire.init (Bus.serving [7])) 80) 1).2) ∧
    (IndexInv cfg32
        (requestFrom cfg32 (beginTransmission (TwoWire.init (Bus.serving [7])) 80) 80 1 1).2 ∧
      OutOfRangeKept cfg32 (beginTransmission (TwoWire.init (Bus.serving [7])) 80)
        (requestFrom cfg32 (beginTransmission (TwoWire.init (Bus.serving [7])) 80) 80 1 1).2) ∧
    (IndexInv cfg32
        (read cfg32 (beginTransmission (TwoWire.init (Bus.serving [7])) 80)).2 ∧
      OutOfRangeKept cfg32 (beginTransmission (TwoWire.init (Bus.serving [7])) 80)
        (read cfg32 (beginTransmission (TwoWire.init (Bus.serving [7])) 80)).2) ∧
    (IndexInv cfg32
        (peek.call (beginTransmission (TwoWire.init (Bus.serving [7])) 80)).2 ∧
      OutOfRangeKept cfg32 (beginTransmission (TwoWire.init (Bus.serving [7])) 80)
        (peek.call (beginTransmission (TwoWire.init (Bus.serving [7])) 80)).2) ∧
    (IndexInv cfg32
        (flush (beginTransmission (TwoWire.init (Bus.serving [7])) 80)) ∧
      OutOfRangeKept cfg32 (beginTransmission (TwoWire.init (Bus.serving [7])) 80)
        (flush (beginTransmission (TwoWire.init (Bus.serving [7])) 80))) :=
  ⟨by decide, ⟨by decide, by decide, by decide⟩,
    index_range_invariant cfg32 (TwoWire.init (Bus.serving []))
      (beginTransmission (TwoWire.init (Bus.serving [7])) 80) 5 [1, 2] 80 1 1
      (by decide) ⟨by decide, by decide, by decide⟩⟩

/-- C29: `read()` is gated on the full test.  It returns -1 and changes nothing
when `(rxWriteIndex + 1) mod BUFFER_LENGTH == rxReadIndex`; in every other
state, the empty one included, it returns `rxBuffer[rxReadIndex]` and advances
`rxReadIndex` by one modulo `BUFFER_LENGTH`; and it returns -1 in no other
state than the full one. -/
theorem read_gated_on_full (cfg : Config) (s : TwoWire) (hB0 : 0 < cfg.BUFFER_LENGTH)
    (hB : cfg.BUFFER_LENGTH ≤ 256) :
    ((s.rxWriteIndex + 1) % cfg.BUFFER_LENGTH = s.rxReadIndex → read cfg s = (-1, s)) ∧
    ((s.rxWriteIndex + 1) % cfg.BUFFER_LENGTH ≠ s.rxReadIndex →
      (read cfg s).1 = (s.rxBuffer s.rxReadIndex : Int) ∧
      (read cfg s).2 = { s with rxReadIndex := (s.rxReadIndex + 1) % cfg.BUFFER_LENGTH }) ∧
    ((read cfg s).1 = -1 ↔ (s.rxWriteIndex + 1) % cfg.BUFFER_LENGTH = s.rxReadIndex) := by
  have hlt : (s.rxReadIndex + 1) % cfg.BUFFER_LENGTH < 256 :=
    lt_of_lt_of_le (Nat.mod_lt _ hB0) hB
  refine ⟨read_of_full cfg s, ?_, ?_⟩
  · intro h
    have hf : RX_BUFFER_FULL cfg s = false := by simp [RX_BUFFER_FULL, h]
    have hu : u8 (((s.rxReadIndex : Int) + 1) % (cfg.BUFFER_LENGTH : Int))
        = (s.rxReadIndex + 1) % cfg.BUFFER_LENGTH := by
      have h' := u8_of_lt hlt
      push_cast at h'
      exact h'
    constructor <;> simp [read, hf, hu]
  · constructor
    · intro h
      by_contra hne
      have := (read_of_not_full cfg s hB0 hB hne).1
      rw [this] at h
      omega
    · intro h
      rw [read_of_full cfg s h]

/-- C29 (witness): with `BUFFER_LENGTH = 32`, `read()` on the empty initial
state returns the content 0 of slot 0 and moves the read index to 1; after 31
bytes were received it returns -1 and changes nothing. -/
theorem read_gated_on_full_witness :
    (read cfg32 (TwoWire.init (Bus.serving []))).1 = 0 ∧
    (read cfg32 (TwoWire.init (Bus.serving []))).2.rxReadIndex = 1 ∧
    read cfg32 (requestFrom cfg32 (TwoWire.init (Bus.serving (List.range 31))) 80 31 1).2
      = (-1, (requestFrom cfg32 (TwoWire.init (Bus.serving (List.range 31))) 80 31 1).2) := by
  have h0 := (read_gated_on_full cfg32 (TwoWire.init (Bus.serving [])) (by decide)
    (by decide)).2.1 (by decide)
  have h1 := (read_gated_on_full cfg32
    (requestFrom cfg32 (TwoWire.init (Bus.serving (List.range 31))) 80 31 1).2 (by decide)
    (by decide)).1 (by decide)
  refine ⟨h0.1, ?_, h1⟩
  rw [h0.2]
  rfl

/-- C30: an empty `endTransmission` never releases the bus.  With
`txWriteIndex == 0`, `endTransmission(sendStop)` leaves the transaction state
and the transmitting flag unchanged and writes no STOP command; so after an
`endTransmission(false)` that sent a non-empty buffer and returned 0, an
immediately following `endTransmission(true)` leaves the state MASTER_TX. -/
theorem endTransmission_empty_keeps_state (cfg : Config) (s : TwoWire) (sendStop : Nat) :
    (s.txWriteIndex = 0 →
      (endTransmission cfg s sendStop).2.currentState = s.currentState ∧
      (endTransmission cfg s sendStop).2.transmitting = s.transmitting ∧
      4 ∉ mcsCommands (issued s (endTransmission cfg s sendStop).2)) ∧
    (s.txWriteIndex ≠ 0 → (endTransmission cfg s 0).1 = 0 →
      (endTransmission cfg (endTransmission cfg s 0).2 sendStop).2.currentState
        = cfg.MASTER_TX) := by
  constructor
  · intro h
    rw [endTransmission_empty cfg s sendStop h]
    exact ⟨rfl, rfl, by simp [issued, mcsCommands]⟩
  · intro h h0
    obtain ⟨more, -, -, m3⟩ := endTransmission_log_any cfg s 0 h
    obtain ⟨z1, -⟩ := endTransmission_zero_resets cfg s 0 h h0
    rw [endTransmission_empty cfg _ sendStop z1]
    exact m3 h0 rfl

/-- C30 (witness): two bytes are sent with `endTransmission(false)`, which
returns 0 and leaves the state MASTER_TX; the `endTransmission(true)` that
follows at once finds nothing queued, and the state is still MASTER_TX. -/
theorem endTransmission_empty_keeps_state_witness :
    (endTransmission cfg32
      (writeBuffer cfg32 (beginTransmission (TwoWire.init (Bus.serving [])) 80)
        [1, 2]).2 0).1 = 0 ∧
    (endTransmission cfg32 (endTransmission cfg32
      (writeBuffer cfg32 (beginTransmission (TwoWire.init (Bus.serving [])) 80)
        [1, 2]).2 0).2 1).2.currentState = cfg32.MASTER_TX :=
  ⟨by decide,
    (endTransmission_empty_keeps_state cfg32
      (writeBuffer cfg32 (beginTransmission (TwoWire.init (Bus.serving [])) 80) [1, 2]).2
      1).2 (by decide) (by decide)⟩

end Wire
